import Mathlib

/-!
Verification development for the audit-report generator
(`src/lib/parseIssue.ts`, `src/lib/generatePdf.ts`, the DOCX assembler,
the translation helper, and the application-level serializer/reindexer).

The TypeScript sources are embedded shallowly:

* JavaScript strings are Lean `String`s; all character-level operations
  (`split`, `trim`, `toLowerCase`, prefix tests) are modelled explicitly on
  the underlying `List Char` so that every step is executable and provable.
  JavaScript `\s` is modelled by the ASCII whitespace characters that occur
  in the template grammar (space, tab, CR, LF).
* The line-anchored regular expressions of `parseIssue` (`^Key:\s*(.+)$`
  with the `m` flag, and friends) are modelled line-locally: a pattern
  matches a physical line of the document exactly as the regex matches that
  line.  The capture semantics (greedy `\s*` with backtracking so that an
  all-whitespace remainder still yields a match whose capture is the final
  whitespace character) is reproduced faithfully.
* `Array.prototype.sort` with a comparator is modelled by a stable
  insertion sort (`sortJs`): JavaScript's sort is required to be stable,
  and for a consistent comparator every stable sort computes the same list.
* `a.localeCompare(b)` depends on the runtime locale; it is modelled as an
  explicit comparator parameter `lc : String → String → Int`, with the
  comparator-consistency facts JavaScript requires stated as hypotheses
  where a theorem needs them.
* The OpenAI network call inside `translateText` is an external effect; it
  is modelled as a function parameter `svc`, and `Except` models a thrown
  exception.  Only the guard logic in front of it is embedded.
-/

/-- ASCII whitespace, the subset of JavaScript `\s` relevant to the template
grammar (space, tab, line feed, carriage return). -/
def isWsChar (c : Char) : Bool :=
  c = ' ' || c = '\t' || c = '\n' || c = '\r'

/-- ASCII lower-casing of one character, modelling `String.toLowerCase` on the
ASCII inputs the severity tables use. -/
def lowerChar (c : Char) : Char :=
  if 'A' ≤ c ∧ c ≤ 'Z' then Char.ofNat (c.toNat + 32) else c

/-- Model of JavaScript `s.toLowerCase()` (ASCII range). -/
def lowerStr (s : String) : String :=
  ⟨s.data.map lowerChar⟩

/-- Split a character list at every occurrence of the separator character,
modelling JavaScript `s.split(sep)` for a one-character separator. -/
def splitCh (sep : Char) : List Char → List (List Char)
  | [] => [[]]
  | c :: cs =>
    if c = sep then [] :: splitCh sep cs
    else
      match splitCh sep cs with
      | [] => [[c]]
      | l :: ls => (c :: l) :: ls

/-- Model of JavaScript `s.split("\n")`: the document's physical lines. -/
def splitNL (s : String) : List String :=
  (splitCh '\n' s.data).map fun cs => ⟨cs⟩

/-- Model of JavaScript `lines.join("\n")`. -/
def joinNL (lines : List String) : String :=
  ⟨(lines.map String.data).intersperse ['\n'] |>.flatten⟩

/-- Drop trailing characters satisfying `p`. -/
def dropTrail (p : Char → Bool) (l : List Char) : List Char :=
  (l.reverse.dropWhile p).reverse

/-- Model of JavaScript `s.trim()` (ASCII whitespace). -/
def jsTrim (s : String) : String :=
  ⟨dropTrail isWsChar (s.data.dropWhile isWsChar)⟩

/-- Substring test on character lists (used for `Evidence:` detection and
fence detection, where the regexes are not line-anchored). -/
def containsSub (needle : List Char) : List Char → Bool
  | [] => needle.isEmpty
  | c :: cs => needle.isPrefixOf (c :: cs) || containsSub needle cs

/-- First `some` produced by `f` over a list, modelling a first-match regex
scan over the document's lines. -/
def firstSome (f : α → Option β) : List α → Option β
  | [] => none
  | a :: l => match f a with
    | some b => some b
    | none => firstSome f l

/-! ## Data model (`src/lib/types.ts`) -/

/-- One extra row of the issue/severity table (`ExtraRow` in `types.ts`). -/
structure ExtraRow where
  title : String
  severity : String
  deriving Repr, DecidableEq

/-- A parsed issue without its runtime identifier
(`Omit<Issue, "_id">` in the source). -/
structure IssueRec where
  title : String
  overallRisk : String
  impact : String
  exploitability : String
  findingId : String
  component : String
  category : String
  status : String
  impactDetails : String
  description : String
  evidence : String
  codeExample : String
  codeLanguage : String
  exampleScenario : String
  recommendation : String
  extraRows : List ExtraRow
  deriving Repr, DecidableEq

/-- A full issue record with its runtime identifier (`Issue` in `types.ts`). -/
structure Issue extends IssueRec where
  _id : Nat
  deriving Repr, DecidableEq

/-- A group of issues under one category (`GroupedCategory` in `types.ts`). -/
structure GroupedCategory where
  category : String
  issues : List Issue
  deriving Repr, DecidableEq

/-- Severity badge color pair (`SeverityColor` in `types.ts`). -/
structure SeverityColor where
  bg : String
  text : String
  deriving Repr, DecidableEq

/-! ## Severity rank and colors (`parseIssue.ts`) -/

/-- `severityRank` from `parseIssue.ts`: the `SEVERITY_ORDER` lookup on the
lower-cased severity, defaulting to 5 for unknown values. -/
def severityRank (severity : String) : Nat :=
  let s := lowerStr severity
  if s = "critical" then 0
  else if s = "high" then 1
  else if s = "medium" then 2
  else if s = "low" then 3
  else if s = "info" then 4
  else if s = "informational" then 4
  else 5

/-- `getSeverityColor` from `parseIssue.ts`. -/
def getSeverityColor (severity : String) : SeverityColor :=
  let s := lowerStr severity
  if s = "critical" then { bg := "#8b0000", text := "#ffffff" }
  else if s = "high" then { bg := "#e74c3c", text := "#ffffff" }
  else if s = "medium" then { bg := "#fd7e14", text := "#ffffff" }
  else if s = "low" then { bg := "#a8d08d", text := "#333333" }
  else if s = "info" ∨ s = "informational" then { bg := "#17a2b8", text := "#ffffff" }
  else { bg := "#6c757d", text := "#ffffff" }

/-- `getSeverityColorHex` from the DOCX assembler. -/
def getSeverityColorHex (severity : String) : String :=
  let s := lowerStr severity
  if s = "critical" then "8B0000"
  else if s = "high" then "E74C3C"
  else if s = "medium" then "FD7E14"
  else if s = "low" then "A8D08D"
  else if s = "info" ∨ s = "informational" then "17A2B8"
  else "6C757D"

/-- `getSeverityFontColor` from the DOCX assembler. -/
def getSeverityFontColor (severity : String) : String :=
  let s := lowerStr severity
  if s = "low" then "333333" else "FFFFFF"

/-- Convert a DOCX hex color (upper-case, no hash) to the CSS form used by
`getSeverityColor` (leading hash, lower-case). -/
def cssOfHex (hex : String) : String :=
  "#" ++ lowerStr hex

/-! ## The issue parser (`parseIssue.ts`)

The line-anchored regexes are modelled line-locally.  `jsCapture` reproduces
the capture of `\s*(.+)$` applied to the text following a matched literal:
the greedy `\s*` backtracks, so when the remainder is non-empty but consists
only of whitespace the capture is the final whitespace character. -/

/-- Capture of `\s*(.+)$` on a non-empty remainder of a line. -/
def jsCapture (rest : List Char) : List Char :=
  let cap := rest.dropWhile isWsChar
  if cap.isEmpty then (rest.reverse.take 1).reverse else cap

/-- Line-local model of `^Key:\s*(.+)$` (the key string includes the colon):
returns the raw capture when the line matches. -/
def matchKeyLine (key line : String) : Option String :=
  if key.data.isPrefixOf line.data ∧ key.data.length < line.data.length then
    some ⟨jsCapture (line.data.drop key.data.length)⟩
  else none

/-- Line-local model of the title pattern `^#\s+Issue title:\s*(.+)$`. -/
def matchTitleLine (line : String) : Option String :=
  match line.data with
  | '#' :: rest =>
    let r2 := rest.dropWhile isWsChar
    if (rest.takeWhile isWsChar).isEmpty then none
    else if "Issue title:".data.isPrefixOf r2 ∧ "Issue title:".data.length < r2.length then
      some ⟨jsCapture (r2.drop "Issue title:".data.length)⟩
    else none
  | _ => none

/-- First match of a metadata pattern over the document's lines, trimmed, with
the empty-string default (`parseIssue`'s metadata loop). -/
def metaValue (key : String) (lines : List String) : String :=
  match firstSome (matchKeyLine key) lines with
  | some v => jsTrim v
  | none => ""

/-- One `extraRows` entry built from the raw capture of an
`Additional Issue:` line: split on `|`, first part is the title, second part
(or `"Medium"` when missing or empty) is the severity, both trimmed. -/
def mkExtraRow (v : String) : ExtraRow :=
  let parts := splitCh '|' v.data
  { title := jsTrim ⟨(parts.head?).getD []⟩
    severity := jsTrim (match parts[1]? with
      | some c => if c.isEmpty then "Medium" else ⟨c⟩
      | none => "Medium") }

/-- Line-local model of the section-heading pattern `^#{2,3}\s+(.+)$` of
`splitSections`: the trimmed, lower-cased heading text. -/
def headingKey (line : String) : Option String :=
  let hashes := line.data.takeWhile (fun c => c = '#')
  let rest := line.data.drop hashes.length
  if hashes.length = 2 ∨ hashes.length = 3 then
    match rest with
    | c :: _ =>
      if isWsChar c ∧ 2 ≤ rest.length then
        some (lowerStr (jsTrim ⟨jsCapture rest⟩))
      else none
    | [] => none
  else none

/-- Close the section being accumulated (`splitSections`' save step). -/
def closeSection : Option (String × List String) → List (String × String)
  | none => []
  | some (k, acc) => [(k, joinNL acc)]

/-- Worker of `splitSections`: walk the lines, starting a new section at
every heading; lines before the first heading are dropped. -/
def splitSectionsGo (cur : Option (String × List String)) :
    List String → List (String × String)
  | [] => closeSection cur
  | l :: ls =>
    match headingKey l with
    | some k => closeSection cur ++ splitSectionsGo (some (k, [])) ls
    | none =>
      match cur with
      | none => splitSectionsGo none ls
      | some (k, acc) => splitSectionsGo (some (k, acc ++ [l])) ls

/-- `splitSections` from `parseIssue.ts`, as the ordered list of
(heading key, section content) pairs. -/
def splitSections (lines : List String) : List (String × String) :=
  splitSectionsGo none lines

/-- Lookup in the sections object: a duplicated heading overwrites the
earlier one, so the last pair with the key wins. -/
def getSection (secs : List (String × String)) (k : String) : Option String :=
  ((secs.filter fun p => p.1 = k).getLast?).map Prod.snd

/-- Line-local model of `^###\s+` (the truncation test of
`extractMainContent`): three hashes followed by a whitespace character.  (A
fourth hash cannot follow, since the follower must be whitespace.) -/
def isSubheadingStart (line : String) : Bool :=
  "###".data.isPrefixOf line.data &&
    match (line.data.drop 3).head? with
    | some c => isWsChar c
    | none => false

/-- `extractMainContent` from `parseIssue.ts`: the lines before the first
third-level subheading, re-joined. -/
def extractMainContent (content : String) : String :=
  joinNL ((splitNL content).takeWhile fun l => ¬ isSubheadingStart l)

/-- Scan one line for the unanchored pattern `Evidence:\s*(.+)$`: the
leftmost occurrence of `Evidence:` followed by at least one character. -/
def evidenceInLine : List Char → Option String
  | [] => none
  | c :: cs =>
    if "Evidence:".data.isPrefixOf (c :: cs) ∧
        "Evidence:".data.length < (c :: cs).length then
      some ⟨jsCapture ((c :: cs).drop "Evidence:".data.length)⟩
    else evidenceInLine cs

/-- First `Evidence:` capture in the description section's content. -/
def evidenceOf (content : String) : Option String :=
  firstSome (fun l => evidenceInLine l.data) (splitNL content)

/-- `\w` of the fence-language capture. -/
def isWordChar (c : Char) : Bool :=
  c.isAlphanum || c = '_'

/-- Split a character list at the first occurrence of three backticks,
returning the part before and the part after the backticks. -/
def findTripleTick : List Char → Option (List Char × List Char)
  | [] => none
  | c :: cs =>
    if "```".data.isPrefixOf (c :: cs) then some ([], (c :: cs).drop 3)
    else
      match findTripleTick cs with
      | some (pre, post) => some (c :: pre, post)
      | none => none

/-- Try to match ``` ```(\w*)\n([\s\S]*?)``` ``` starting exactly at the
given position, returning (language capture, lazy body capture). -/
def matchCodeFenceAt (cs : List Char) : Option (String × String) :=
  if "```".data.isPrefixOf cs then
    let after := cs.drop 3
    let lang := after.takeWhile isWordChar
    match after.drop lang.length with
    | '\n' :: body =>
      match findTripleTick body with
      | some (pre, _) => some (⟨lang⟩, ⟨pre⟩)
      | none => none
    | _ => none
  else none

/-- Leftmost match of the fenced-code-block pattern in the section text. -/
def findCodeBlock : List Char → Option (String × String)
  | [] => none
  | c :: cs =>
    match matchCodeFenceAt (c :: cs) with
    | some r => some r
    | none => findCodeBlock cs

/-- `parseIssue` from `parseIssue.ts`: parse one markdown document into an
issue record, with every absent field defaulting to the empty string. -/
def parseIssue (markdownContent : String) : IssueRec :=
  let lines := splitNL markdownContent
  let secs := splitSections lines
  let descContent := getSection secs "description"
  let codePair : String × String :=
    match getSection secs "code example" with
    | some c =>
      match findCodeBlock c.data with
      | some (lang, body) =>
        (jsTrim body, if lang = "" then "text" else lang)
      | none => (jsTrim c, "")
    | none => ("", "")
  { title :=
      match firstSome matchTitleLine lines with
      | some v => jsTrim v
      | none => ""
    overallRisk := metaValue "Overall Risk:" lines
    impact := metaValue "Impact:" lines
    exploitability := metaValue "Exploitability:" lines
    findingId := metaValue "Finding ID:" lines
    component := metaValue "Component:" lines
    category := metaValue "Category:" lines
    status := metaValue "Status:" lines
    impactDetails :=
      match getSection secs "impact details" with
      | some c => jsTrim c
      | none => ""
    description :=
      match descContent with
      | some c => jsTrim (extractMainContent c)
      | none => ""
    evidence :=
      match descContent with
      | some c =>
        match evidenceOf c with
        | some v => jsTrim v
        | none => ""
      | none => ""
    codeExample := codePair.1
    codeLanguage := codePair.2
    exampleScenario :=
      match getSection secs "example issue scenario" with
      | some c => jsTrim c
      | none => ""
    recommendation :=
      match getSection secs "recommendation" with
      | some c => jsTrim c
      | none => ""
    extraRows := (lines.filterMap (matchKeyLine "Additional Issue:")).map mkExtraRow }

/-! ## The markdown serializer (`issueToMarkdown` in the application file) -/

/-- JavaScript `s || d` on strings: the empty string is falsy. -/
def orDefault (s d : String) : String :=
  if s = "" then d else s

/-- The entries pushed onto `lines` by `issueToMarkdown`, in order.  Note
that a multi-line field value is pushed as a single entry; the final
`join("\n")` flattens it into several physical lines. -/
def issueToMarkdownEntries (i : Issue) : List String :=
  ["# Issue title: " ++ orDefault i.title "Untitled", "",
   "Overall Risk: " ++ orDefault i.overallRisk "Medium"]
  ++ i.extraRows.map (fun r =>
      "Additional Issue: " ++ orDefault r.title "" ++ " | " ++ orDefault r.severity "Medium")
  ++ ["Impact: " ++ orDefault i.impact "Medium",
      "Exploitability: " ++ orDefault i.exploitability "Medium",
      "Finding ID: " ++ orDefault i.findingId "ABC-XXXXXX",
      "Component: " ++ i.component,
      "Category: " ++ orDefault i.category "Uncategorized",
      "Status: " ++ orDefault i.status "New",
      "",
      "## Impact details", "", i.impactDetails, "",
      "## Description", "", i.description, ""]
  ++ (if i.evidence ≠ "" then ["Evidence: " ++ i.evidence, ""] else [])
  ++ (if i.codeExample ≠ "" ∧ jsTrim i.codeExample ≠ "" then
       ["### Code example", "", "```" ++ i.codeLanguage, i.codeExample, "```", ""]
      else [])
  ++ ["### Example issue scenario", "", i.exampleScenario, "",
      "## Recommendation", "", i.recommendation, ""]

/-- `issueToMarkdown` from the application file. -/
def issueToMarkdown (i : Issue) : String :=
  joinNL (issueToMarkdownEntries i)

/-! ## Grouping and ordering (`groupByCategory` in `parseIssue.ts`)

`Array.prototype.sort` with a comparator is stable; `sortJs lt` is the
stable insertion sort placing a later element after every earlier element
that is not strictly greater. -/

/-- Stable insertion of `a` (a later element) into an already sorted list of
earlier elements: `a` goes after every element not strictly greater. -/
def insertJs (lt : α → α → Bool) (a : α) : List α → List α
  | [] => [a]
  | b :: bs => if lt b a then b :: insertJs lt a bs else a :: b :: bs

/-- Stable sort modelling `Array.prototype.sort` with the strict comparator
test `lt a b ↔ comparator(a,b) < 0`. -/
def sortJs (lt : α → α → Bool) (l : List α) : List α :=
  l.foldr (insertJs lt) []

/-- The grouping key: `issue.category || "Uncategorized"`. -/
def catKeyOf (i : Issue) : String :=
  if i.category = "" then "Uncategorized" else i.category

/-- Worker for `firstOccur`: keep a key only on its first occurrence, the
already-seen keys carried in `seen`. -/
def firstOccurAux (seen : List String) : List String → List String
  | [] => []
  | k :: ks =>
    if k ∈ seen then firstOccurAux seen ks
    else k :: firstOccurAux (k :: seen) ks

/-- Keys in first-insertion order, as a JavaScript `Map` enumerates them. -/
def firstOccur (l : List String) : List String :=
  firstOccurAux [] l

/-- `groupByCategory` from `parseIssue.ts`, with the locale comparator of
`localeCompare` passed explicitly.  A `Map` keyed by `catKeyOf` and filled
by pushes is enumerated in first-insertion key order with each bucket in
input order, i.e. bucket `k` is `issues.filter (catKeyOf · = k)`. -/
def groupByCategory (lc : String → String → Int) (issues : List Issue) :
    List GroupedCategory :=
  let keys := firstOccur (issues.map catKeyOf)
  let sortedKeys := sortJs (fun a b => lc a b < 0) keys
  sortedKeys.map fun k =>
    { category := k
      issues := sortJs
        (fun a b => severityRank a.overallRisk < severityRank b.overallRisk)
        (issues.filter fun i => catKeyOf i = k) }

/-! ## Finding-id reindexing (`reindexFindingIds` in the application file) -/

/-- JavaScript `String(num).padStart(4, "0")`. -/
def padStart4 (s : String) : String :=
  if 4 ≤ s.length then s else ⟨List.replicate (4 - s.length) '0'⟩ ++ s

/-- The inner `forEach` of `reindexFindingIds`: issue `ii` of category `ci`
is assigned the number `ci * 1000 + ii + 1`, zero-padded to four digits
behind the prefix. -/
def issueIdsGo (pfx : String) (ci : Nat) (ii : Nat) : List Issue → List (Nat × String)
  | [] => []
  | iss :: rest =>
    (iss._id, pfx ++ "-" ++ padStart4 (toString (ci * 1000 + ii + 1)))
      :: issueIdsGo pfx ci (ii + 1) rest

/-- The outer `forEach` of `reindexFindingIds` over the grouped categories. -/
def reindexIdMapGo (pfx : String) (ci : Nat) : List GroupedCategory → List (Nat × String)
  | [] => []
  | g :: gs => issueIdsGo pfx ci 0 g.issues ++ reindexIdMapGo pfx (ci + 1) gs

/-- The `idMap` built by `reindexFindingIds`, in insertion order. -/
def reindexIdMap (pfx : String) (groups : List GroupedCategory) :
    List (Nat × String) :=
  reindexIdMapGo pfx 0 groups

/-- `Map.get` after a sequence of `Map.set`s: the last binding wins. -/
def lookupLast (m : List (Nat × String)) (k : Nat) : Option String :=
  ((m.filter fun p => p.1 = k).getLast?).map Prod.snd

/-- `reindexFindingIds` from the application file, with the prompt result
(the prefix) passed explicitly. -/
def reindexFindingIds (lc : String → String → Int) (pfx : String)
    (issues : List Issue) : List Issue :=
  let idMap := reindexIdMap pfx (groupByCategory lc issues)
  issues.map fun iss =>
    match lookupLast idMap iss._id with
    | some fid => { iss with findingId := fid }
    | none => iss

/-! ## PDF pagination (`addCanvasToPdf` in `generatePdf.ts`)

The canvas dimensions are integer pixel counts.  The JavaScript computes
`pxPerMm = canvasWidth / USABLE_WIDTH` in floating point; here the derived
quantities are modelled with exact rational arithmetic over `Nat`:
`totalImgHeightMm ≤ USABLE_HEIGHT` becomes
`canvasHeight * USABLE_WIDTH ≤ USABLE_HEIGHT * canvasWidth`, and
`Math.floor(USABLE_HEIGHT * pxPerMm)` becomes Nat division. -/

def A4_WIDTH_MM : Nat := 210
def A4_HEIGHT_MM : Nat := 297
def MARGIN_TOP : Nat := 12
def MARGIN_BOTTOM : Nat := 14
def MARGIN_LEFT : Nat := 12
def MARGIN_RIGHT : Nat := 12
def USABLE_WIDTH : Nat := A4_WIDTH_MM - MARGIN_LEFT - MARGIN_RIGHT
def USABLE_HEIGHT : Nat := A4_HEIGHT_MM - MARGIN_TOP - MARGIN_BOTTOM

/-- `stripHeightPx = Math.floor(USABLE_HEIGHT * pxPerMm)`. -/
def stripHeightPx (canvasWidth : Nat) : Nat :=
  USABLE_HEIGHT * canvasWidth / USABLE_WIDTH

/-- The slicing loop of `addCanvasToPdf`: repeatedly cut
`min strip remaining` pixel rows until nothing remains.  The fuel argument
makes the loop total; `addCanvasToPdfStrips` supplies fuel `canvasHeight`,
which suffices whenever `strip ≥ 1` (the loop then advances every turn,
exactly as the JavaScript loop does). -/
def sliceStripsGo (strip : Nat) : Nat → Nat → List Nat
  | 0, _ => []
  | _ + 1, 0 => []
  | fuel + 1, remaining + 1 =>
    let t := min strip (remaining + 1)
    t :: sliceStripsGo strip fuel (remaining + 1 - t)

/-- The strip heights produced by `addCanvasToPdf` for a canvas of the given
pixel dimensions: a single full-height image when the content fits one page,
otherwise page-height slices. -/
def addCanvasToPdfStrips (canvasWidth canvasHeight : Nat) : List Nat :=
  if canvasHeight * USABLE_WIDTH ≤ USABLE_HEIGHT * canvasWidth then
    [canvasHeight]
  else
    sliceStripsGo (stripHeightPx canvasWidth) canvasHeight canvasHeight

/-! ## Translation guards (`translateText` in the translation helper)

The remote call is abstracted as `svc`; a thrown exception is `Except.error`.
Only the guard chain in front of the call is embedded: unavailable service
first, then blank text, then blank target language. -/

/-- `translateText` from the translation helper. -/
def translateText (available : Bool)
    (svc : String → String → Except String String)
    (text targetLanguage : String) : Except String String :=
  if available = false then .ok text
  else if jsTrim text = "" then .ok text
  else if jsTrim targetLanguage = "" then .error "Target language is required"
  else svc text targetLanguage

/-! ## Inline markup (`inlineMarkdownToHtml` in `parseIssue.ts` and
`parseInlineMarkdown` in the DOCX assembler)

Each global regex replace is modelled by a left-to-right scanner that
attempts the pattern at every position and, on failure, emits the current
character and advances by one — exactly the engine's behaviour for these
patterns (whose character classes exclude the delimiters, so regex
backtracking cannot produce a different match). -/

/-- One character of the HTML-entity escaping pass.  The source performs
three sequential global replaces (`&`, then `<`, then `>`); since the
replacement texts contain no `<` or `>` and the `&` pass runs first, the
composition equals this character-wise map. -/
def escapeHtmlChar (c : Char) : List Char :=
  if c = '&' then "&amp;".data
  else if c = '<' then "&lt;".data
  else if c = '>' then "&gt;".data
  else [c]

/-- The entity-escaping pass of `inlineMarkdownToHtml`. -/
def escapeHtml (l : List Char) : List Char :=
  l.flatMap escapeHtmlChar

/-- Global replace of a delimited span pattern such as `` `([^`]+)` ``,
`\*\*([^*]+)\*\*` or `\*([^*]+)\*`: `delim` is the delimiter, `excl` the
excluded character of the class, and the match is rewritten to
`openT ++ content ++ closeT`. -/
def replaceSpan (delim : List Char) (excl : Char) (openT closeT : List Char) :
    List Char → List Char
  | [] => []
  | c :: cs =>
    if delim.isPrefixOf (c :: cs) then
      let rest := (c :: cs).drop delim.length
      let content := rest.takeWhile fun x => x ≠ excl
      let rest2 := rest.drop content.length
      if content.isEmpty then c :: replaceSpan delim excl openT closeT cs
      else if delim.isPrefixOf rest2 then
        openT ++ content ++ closeT ++
          replaceSpan delim excl openT closeT
            (cs.drop (delim.length + content.length + delim.length - 1))
      else c :: replaceSpan delim excl openT closeT cs
    else c :: replaceSpan delim excl openT closeT cs
termination_by l => l.length
decreasing_by
  all_goals simp only [List.length_drop, List.length_cons]
  all_goals omega

/-- Global replace of the link pattern `\[([^\]]+)\]\(([^)]+)\)`, with the
rewrite of a match given by `emit text url`. -/
def scanLinks (emit : List Char → List Char → List Char) :
    List Char → List Char
  | [] => []
  | c :: cs =>
    if c = '[' then
      let t := cs.takeWhile fun x => x ≠ ']'
      let r1 := cs.drop t.length
      if t.isEmpty then c :: scanLinks emit cs
      else if "](".data.isPrefixOf r1 then
        let r2 := r1.drop 2
        let u := r2.takeWhile fun x => x ≠ ')'
        let r3 := r2.drop u.length
        if u.isEmpty then c :: scanLinks emit cs
        else if r3.head? = some ')' then
          emit t u ++ scanLinks emit (cs.drop (t.length + 2 + u.length + 1))
        else c :: scanLinks emit cs
      else c :: scanLinks emit cs
    else c :: scanLinks emit cs
termination_by l => l.length
decreasing_by
  all_goals simp only [List.length_drop, List.length_cons]
  all_goals omega

/-- `inlineMarkdownToHtml` from `parseIssue.ts`: escape entities, then
rewrite code, bold, italic and link markup in that order. -/
def inlineMarkdownToHtml (text : String) : String :=
  if text = "" then ""
  else
    let h1 := escapeHtml text.data
    let h2 := replaceSpan "`".data '`' "<code>".data "</code>".data h1
    let h3 := replaceSpan "**".data '*' "<strong>".data "</strong>".data h2
    let h4 := replaceSpan "*".data '*' "<em>".data "</em>".data h3
    ⟨scanLinks
      (fun t u => "<a href=\"".data ++ u ++ "\">".data ++ t ++ "</a>".data)
      h4⟩

/-- One styled text run of the DOCX renderer (`TextRun` with the
corresponding style options). -/
inductive MdRun where
  | code (text : String)
  | bold (text : String)
  | italic (text : String)
  | plain (text : String)
  deriving Repr, DecidableEq

/-- The tokenizer loop of `parseInlineMarkdown`: the successive matches of
``(`[^`]+`|\*\*[^*]+\*\*|\*[^*]+\*|[^`*]+)`` over the input, each with its
delimiters.  Positions where no alternative matches are skipped, as
`exec` resumes at the next match. -/
def tokenizeInline : List Char → List (List Char)
  | [] => []
  | '`' :: cs =>
    let t := cs.takeWhile fun x => x ≠ '`'
    if ¬ t.isEmpty ∧ ¬ (cs.drop t.length).isEmpty then
      ('`' :: (t ++ ['`'])) :: tokenizeInline (cs.drop (t.length + 1))
    else tokenizeInline cs
  | '*' :: '*' :: cs2 =>
    let t := cs2.takeWhile fun x => x ≠ '*'
    if ¬ t.isEmpty ∧ "**".data.isPrefixOf (cs2.drop t.length) then
      ('*' :: '*' :: (t ++ ['*', '*'])) :: tokenizeInline (cs2.drop (t.length + 2))
    else tokenizeInline ('*' :: cs2)
  | '*' :: cs =>
    let t := cs.takeWhile fun x => x ≠ '*'
    if ¬ t.isEmpty ∧ ¬ (cs.drop t.length).isEmpty then
      ('*' :: (t ++ ['*'])) :: tokenizeInline (cs.drop (t.length + 1))
    else tokenizeInline cs
  | c :: cs =>
    let t := cs.takeWhile fun x => x ≠ '`' ∧ x ≠ '*'
    (c :: t) :: tokenizeInline (cs.drop t.length)
termination_by l => l.length
decreasing_by
  all_goals simp only [List.length_drop, List.length_cons]
  all_goals omega

/-- The per-segment classification of `parseInlineMarkdown`'s loop body:
delimiter tests, then the link strip on plain segments (dropped entirely
when the strip leaves nothing). -/
def runsOfSegment (seg : List Char) : List MdRun :=
  if seg.head? = some '`' ∧ seg.getLast? = some '`' then
    [MdRun.code ⟨(seg.drop 1).dropLast⟩]
  else if "**".data.isPrefixOf seg ∧ "**".data.isSuffixOf seg then
    [MdRun.bold ⟨((seg.drop 2).dropLast).dropLast⟩]
  else if seg.head? = some '*' ∧ seg.getLast? = some '*' then
    [MdRun.italic ⟨(seg.drop 1).dropLast⟩]
  else
    let stripped := scanLinks (fun t _ => t) seg
    if stripped.isEmpty then [] else [MdRun.plain ⟨stripped⟩]

/-- `parseInlineMarkdown` from the DOCX assembler, as the list of styled
runs it produces. -/
def parseInlineMarkdown (text : String) : List MdRun :=
  if text = "" then [MdRun.plain ""]
  else
    let runs := (tokenizeInline text.data).flatMap runsOfSegment
    if runs.isEmpty then [MdRun.plain text] else runs

/-- A concrete comparator standing in for the default-locale
`localeCompare` in witnesses: code-point lexicographic order (on the
character lists, whose order relation is kernel-computable). -/
def lcLex (a b : String) : Int :=
  if a.data < b.data then -1 else if b.data < a.data then 1 else 0

/-- A minimal issue record used by concrete witnesses. -/
def sampleIssue (n : Nat) (cat risk : String) : Issue :=
  { title := "", overallRisk := risk, impact := "", exploitability := "",
    findingId := "", component := "", category := cat, status := "",
    impactDetails := "", description := "", evidence := "", codeExample := "",
    codeLanguage := "", exampleScenario := "", recommendation := "",
    extraRows := [], _id := n }

/-- Witness input for the grouping claims: three categories (one empty,
mapped to `Uncategorized`), with a severity tie inside `B`. -/
def sampleIssues : List Issue :=
  [sampleIssue 1 "B" "Low", sampleIssue 2 "A" "High",
   sampleIssue 3 "B" "Critical", sampleIssue 4 "" "Medium"]

/-- Witness input for the reindexing claim: categories `A` (2 issues) and
`B` (3 issues) in canonical order. -/
def reindexSample : List Issue :=
  [sampleIssue 1 "B" "Low", sampleIssue 2 "A" "High",
   sampleIssue 3 "B" "Critical", sampleIssue 4 "A" "Medium",
   sampleIssue 5 "B" "Medium"]

/-! ## Well-formedness for the serializer round trip (claim C2)

The round-trip statement needs the record's field values to be compatible
with the template grammar: metadata values are non-empty single trimmed
lines, content blocks are non-empty trimmed text none of whose lines
collides with the grammar's markers, the code block contains no fence and
its language tag is a regex word, and extra rows contain no pipe. -/

/-- A value usable on a single `key: value` line: non-empty, trimmed, and
free of line breaks. -/
def simpleLine (s : String) : Prop :=
  s.data ≠ [] ∧ jsTrim s = s ∧ ∀ c ∈ s.data, c ≠ '\n'

/-- A content line that collides with none of the grammar's markers: it is
not a section heading, not an `extractMainContent` truncation point, not an
`Additional Issue:` line, and mentions no `Evidence:` capture. -/
def plainLine (l : String) : Prop :=
  headingKey l = none
  ∧ isSubheadingStart l = false
  ∧ matchKeyLine "Additional Issue:" l = none
  ∧ containsSub "Evidence:".data l.data = false

/-- A content block: non-empty, trimmed, with every line plain. -/
def plainBlock (s : String) : Prop :=
  s.data ≠ [] ∧ jsTrim s = s ∧ ∀ l ∈ splitNL s, plainLine l

/-- A non-empty `\w*` language tag. -/
def wordString (s : String) : Prop :=
  s.data ≠ [] ∧ ∀ c ∈ s.data, isWordChar c = true

/-- A code block whose text never closes its own fence. -/
def codeBlockOk (s : String) : Prop :=
  plainBlock s ∧ containsSub "```".data s.data = false

/-- A well-formed extra row: both parts simple lines without a pipe. -/
def extraRowOk (r : ExtraRow) : Prop :=
  simpleLine r.title ∧ simpleLine r.severity
  ∧ (∀ c ∈ r.title.data, c ≠ '|') ∧ (∀ c ∈ r.severity.data, c ≠ '|')

/-- Template-compatible issue record (see the module comment above). -/
def wfIssue (i : Issue) : Prop :=
  simpleLine i.title ∧ simpleLine i.overallRisk ∧ simpleLine i.impact
  ∧ simpleLine i.exploitability ∧ simpleLine i.findingId
  ∧ simpleLine i.component ∧ simpleLine i.category ∧ simpleLine i.status
  ∧ plainBlock i.impactDetails ∧ plainBlock i.description
  ∧ simpleLine i.evidence ∧ codeBlockOk i.codeExample
  ∧ wordString i.codeLanguage ∧ plainBlock i.exampleScenario
  ∧ plainBlock i.recommendation ∧ ∀ r ∈ i.extraRows, extraRowOk r

/-- A concrete all-fields-non-empty issue for the round-trip
counterexample. -/
def roundTripIssue : Issue :=
  { title := "T", overallRisk := "High", impact := "I", exploitability := "X",
    findingId := "F-1", component := "Comp", category := "Cat",
    status := "New", impactDetails := "impact details text",
    description := "desc text", evidence := "ev", codeExample := "code line",
    codeLanguage := "python", exampleScenario := "scen",
    recommendation := "rec",
    extraRows := [{ title := "extra", severity := "Low" }], _id := 7 }

/-! ## Basic lemmas about the string model -/

theorem splitCh_ne_nil (sep : Char) (l : List Char) : splitCh sep l ≠ [] := by
  induction l with
  | nil => simp [splitCh]
  | cons c cs ih =>
    simp only [splitCh]
    split
    · simp
    · cases h : splitCh sep cs with
      | nil => exact absurd h ih
      | cons a as => simp

theorem splitCh_append_sep (sep : Char) (a b : List Char) :
    splitCh sep (a ++ sep :: b) = splitCh sep a ++ splitCh sep b := by
  induction a with
  | nil => simp [splitCh]
  | cons c cs ih =>
    simp only [List.cons_append, splitCh]
    by_cases hc : c = sep
    · simp [hc, ih]
    · simp only [hc, if_false]
      cases h : splitCh sep cs with
      | nil => exact absurd h (splitCh_ne_nil sep cs)
      | cons x xs =>
        simp only [List.append_eq]
        rw [ih, h]
        simp

theorem splitCh_eq_single (sep : Char) (l : List Char)
    (h : ∀ c ∈ l, c ≠ sep) : splitCh sep l = [l] := by
  induction l with
  | nil => rfl
  | cons c cs ih =>
    have hc : c ≠ sep := h c (by simp)
    have ih' := ih fun x hx => h x (by simp [hx])
    simp [splitCh, hc, ih']

theorem splitNL_single (s : String) (h : ∀ c ∈ s.data, c ≠ '\n') :
    splitNL s = [s] := by
  simp [splitNL, splitCh_eq_single '\n' s.data h]

theorem joinNL_nil : joinNL [] = "" := rfl

theorem joinNL_single (s : String) : joinNL [s] = s := by
  simp [joinNL]

theorem joinNL_cons (s : String) (t : String) (ls : List String) :
    joinNL (s :: t :: ls) = ⟨s.data ++ '\n' :: (joinNL (t :: ls)).data⟩ := by
  simp [joinNL, List.intersperse]

theorem splitNL_joinNL_cons (s t : String) (ls : List String) :
    splitNL (joinNL (s :: t :: ls)) = splitNL s ++ splitNL (joinNL (t :: ls)) := by
  rw [joinNL_cons]
  simp only [splitNL]
  rw [splitCh_append_sep]
  simp

theorem splitNL_joinNL (entries : List String) (h : entries ≠ []) :
    splitNL (joinNL entries) = entries.flatMap splitNL := by
  induction entries with
  | nil => exact absurd rfl h
  | cons s rest ih =>
    cases rest with
    | nil => simp [joinNL_single, List.flatMap]
    | cons t ls =>
      rw [splitNL_joinNL_cons, ih (by simp)]
      simp [List.flatMap]

theorem dropWhile_eq_self_of_head (p : Char → Bool) (l : List Char)
    (h : ∀ c, l.head? = some c → p c = false) : l.dropWhile p = l := by
  cases l with
  | nil => rfl
  | cons c cs =>
    have := h c rfl
    simp [List.dropWhile, this]

theorem dropWhile_all_append (p : Char → Bool) (a b : List Char)
    (h : ∀ c ∈ a, p c = true) : (a ++ b).dropWhile p = b.dropWhile p := by
  induction a with
  | nil => simp
  | cons c cs ih =>
    have hc := h c (by simp)
    simp only [List.cons_append, List.dropWhile, hc]
    exact ih fun x hx => h x (by simp [hx])

theorem dropWhile_eq_of_length (p : Char → Bool) (l : List Char)
    (h : (l.dropWhile p).length = l.length) : l.dropWhile p = l := by
  induction l with
  | nil => rfl
  | cons c cs ih =>
    by_cases hc : p c
    · exfalso
      have hle := (List.dropWhile_sublist (l := cs) p).length_le
      simp [List.dropWhile, hc] at h
      omega
    · simp [List.dropWhile, hc]

theorem dropTrail_all_append (p : Char → Bool) (a b : List Char)
    (h : ∀ c ∈ b, p c = true) : dropTrail p (a ++ b) = dropTrail p a := by
  unfold dropTrail
  rw [List.reverse_append, dropWhile_all_append p b.reverse a.reverse
    (fun c hc => h c (List.mem_reverse.mp hc))]

theorem dropTrail_length_le (p : Char → Bool) (l : List Char) :
    (dropTrail p l).length ≤ l.length := by
  unfold dropTrail
  have := (List.dropWhile_sublist (l := l.reverse) p).length_le
  simpa using this

theorem trimFix_dropWhile (v : String) (h : jsTrim v = v) :
    v.data.dropWhile isWsChar = v.data := by
  have hd : dropTrail isWsChar (v.data.dropWhile isWsChar) = v.data := by
    have := congrArg String.data h
    simpa [jsTrim] using this
  have h1 := dropTrail_length_le isWsChar (v.data.dropWhile isWsChar)
  have h2 := (List.dropWhile_sublist (l := v.data) isWsChar).length_le
  have h3 : (dropTrail isWsChar (v.data.dropWhile isWsChar)).length = v.data.length := by
    rw [hd]
  exact dropWhile_eq_of_length _ _ (by omega)

theorem trimFix_dropTrail (v : String) (h : jsTrim v = v) :
    dropTrail isWsChar v.data = v.data := by
  have hw := trimFix_dropWhile v h
  have hd := congrArg String.data h
  simp only [jsTrim] at hd
  rw [hw] at hd
  exact hd

theorem trimFix_head (v : String) (h : jsTrim v = v) (c : Char)
    (hc : v.data.head? = some c) : isWsChar c = false := by
  have hw := trimFix_dropWhile v h
  cases hv : v.data with
  | nil => simp [hv] at hc
  | cons x xs =>
    rw [hv] at hc hw
    simp only [List.head?_cons, Option.some.injEq] at hc
    subst hc
    by_cases hx : isWsChar x
    · exfalso
      have hle := (List.dropWhile_sublist (l := xs) isWsChar).length_le
      simp [List.dropWhile, hx] at hw
      have := congrArg List.length hw
      simp at this
      omega
    · simpa using hx

theorem trimFix_last (v : String) (h : jsTrim v = v) (c : Char)
    (hc : v.data.getLast? = some c) : isWsChar c = false := by
  have hw := trimFix_dropTrail v h
  have hrev : v.data.reverse.head? = some c := by
    rw [List.head?_reverse]
    exact hc
  cases hv : v.data.reverse with
  | nil => simp [hv] at hrev
  | cons x xs =>
    rw [hv] at hrev
    simp only [List.head?_cons, Option.some.injEq] at hrev
    subst hrev
    by_cases hx : isWsChar x
    · exfalso
      unfold dropTrail at hw
      rw [hv] at hw
      simp only [List.dropWhile, hx, if_true] at hw
      have hle := (List.dropWhile_sublist (l := xs) isWsChar).length_le
      have hlen := congrArg List.length hw
      have hvl : v.data.length = xs.length + 1 := by
        have := congrArg List.length hv
        simpa using this
      simp only [List.length_reverse] at hlen
      omega
    · simpa using hx

theorem dropWhile_core_append (v : String) (hfix : jsTrim v = v)
    (hne : v.data ≠ []) (suf : List Char) :
    (v.data ++ suf).dropWhile isWsChar = v.data ++ suf := by
  cases hv : v.data with
  | nil => exact absurd hv hne
  | cons x xs =>
    have hx : isWsChar x = false := trimFix_head v hfix x (by simp [hv])
    simp [List.dropWhile, hx]

theorem jsTrim_sandwich (pre suf : List Char) (v : String)
    (hpre : ∀ c ∈ pre, isWsChar c = true) (hsuf : ∀ c ∈ suf, isWsChar c = true)
    (hfix : jsTrim v = v) :
    jsTrim ⟨pre ++ (v.data ++ suf)⟩ = v := by
  by_cases hv : v.data = []
  · apply String.ext
    simp only [jsTrim, hv, List.nil_append]
    rw [dropWhile_all_append isWsChar pre suf hpre,
      List.dropWhile_eq_nil_iff.mpr (fun c hc => by simp [hsuf c hc])]
    simp [dropTrail, hv]
  · apply String.ext
    simp only [jsTrim]
    rw [dropWhile_all_append isWsChar pre _ hpre,
      dropWhile_core_append v hfix hv suf,
      dropTrail_all_append isWsChar _ _ hsuf, trimFix_dropTrail v hfix]

theorem jsCapture_ws_core (pre : List Char) (v : String)
    (hpre : ∀ c ∈ pre, isWsChar c = true) (hfix : jsTrim v = v)
    (hne : v.data ≠ []) :
    jsCapture (pre ++ v.data) = v.data := by
  unfold jsCapture
  rw [dropWhile_all_append isWsChar pre _ hpre, trimFix_dropWhile v hfix]
  simp [List.isEmpty_iff, hne]

theorem firstSome_cons_none (f : α → Option β) (a : α) (l : List α)
    (h : f a = none) : firstSome f (a :: l) = firstSome f l := by
  simp [firstSome, h]

theorem firstSome_cons_some (f : α → Option β) (a : α) (l : List α) (b : β)
    (h : f a = some b) : firstSome f (a :: l) = some b := by
  simp [firstSome, h]

theorem firstSome_append_none (f : α → Option β) (l₁ l₂ : List α)
    (h : ∀ a ∈ l₁, f a = none) : firstSome f (l₁ ++ l₂) = firstSome f l₂ := by
  induction l₁ with
  | nil => rfl
  | cons a as ih =>
    rw [List.cons_append, firstSome_cons_none f a _ (h a (by simp))]
    exact ih fun x hx => h x (by simp [hx])

theorem firstSome_none (f : α → Option β) (l : List α)
    (h : ∀ a ∈ l, f a = none) : firstSome f l = none := by
  induction l with
  | nil => rfl
  | cons a as ih =>
    rw [firstSome_cons_none f a _ (h a (by simp))]
    exact ih fun x hx => h x (by simp [hx])

/-! ## Claim C5 — severity color mapping -/

/-- Claim C5, counterexample: the claim asserts that the default severity
pair uses a dark foreground like `low`; in the code the default foreground
is the light `#ffffff` shared with `critical`, not the dark `#333333`. -/
theorem severityColor_default_foreground_counterexample :
    (getSeverityColor "completely unrecognized").text
      = (getSeverityColor "Critical").text
  ∧ (getSeverityColor "completely unrecognized").text
      ≠ (getSeverityColor "Low").text
  ∧ (getSeverityColor "completely unrecognized").text = "#ffffff" := by
  decide

/-- Claim C5 (amended): the severity color mapping is a fixed
case-insensitive lookup; `getSeverityColor` agrees on `"Critical"` and
`"critical"`; every unrecognized value gets the defined default pair; the
DOCX lookup (`getSeverityColorHex` with `getSeverityFontColor`) agrees with
`getSeverityColor` on every input; and the dark foreground `#333333` is used
exactly for `low` (the default, like the other recognized levels, uses the
light foreground). -/
theorem severityColor_consistent :
    getSeverityColor "Critical" = getSeverityColor "critical"
  ∧ (∀ s : String,
      lowerStr s ∉
        (["critical", "high", "medium", "low", "info", "informational"] :
          List String) →
      getSeverityColor s = { bg := "#6c757d", text := "#ffffff" })
  ∧ (∀ s : String, getSeverityColor s =
      { bg := cssOfHex (getSeverityColorHex s)
        text := cssOfHex (getSeverityFontColor s) })
  ∧ (∀ s : String, (getSeverityColor s).text = "#333333" ↔ lowerStr s = "low") := by
  refine ⟨by decide, ?_, ?_, ?_⟩
  · intro s h
    simp only [List.mem_cons, List.not_mem_nil, or_false, not_or] at h
    obtain ⟨h1, h2, h3, h4, h5, h6⟩ := h
    simp [getSeverityColor, h1, h2, h3, h4, h5, h6]
  · intro s
    unfold getSeverityColor getSeverityColorHex getSeverityFontColor cssOfHex
    dsimp only
    split_ifs <;> simp_all <;> decide
  · intro s
    unfold getSeverityColor
    dsimp only
    split_ifs <;> simp_all

/-- Claim C5, witness: the amended theorem applied at concrete inputs. -/
theorem severityColor_consistent_witness :
    getSeverityColor "WeIrD" = { bg := "#6c757d", text := "#ffffff" }
  ∧ getSeverityColor "Low" =
      { bg := cssOfHex (getSeverityColorHex "Low")
        text := cssOfHex (getSeverityFontColor "Low") }
  ∧ ((getSeverityColor "Low").text = "#333333" ↔ lowerStr "Low" = "low") :=
  ⟨severityColor_consistent.2.1 "WeIrD" (by decide),
   severityColor_consistent.2.2.1 "Low",
   severityColor_consistent.2.2.2 "Low"⟩

/-! ## Claim C3 — pagination conservation -/

theorem USABLE_WIDTH_eq : USABLE_WIDTH = 186 := rfl

theorem USABLE_HEIGHT_eq : USABLE_HEIGHT = 271 := rfl

theorem sliceStrips_spec (strip : Nat) (hs : 1 ≤ strip) :
    ∀ fuel r, r ≤ fuel →
      (sliceStripsGo strip fuel r).sum = r ∧
      ∀ t ∈ sliceStripsGo strip fuel r, 1 ≤ t ∧ t ≤ strip := by
  intro fuel
  induction fuel with
  | zero =>
    intro r hr
    have : r = 0 := by omega
    subst this
    simp [sliceStripsGo]
  | succ f ih =>
    intro r hr
    match r with
    | 0 => simp [sliceStripsGo]
    | r' + 1 =>
      have hrec := ih (r' + 1 - min strip (r' + 1)) (by omega)
      simp only [sliceStripsGo]
      constructor
      · simp only [List.sum_cons, hrec.1]
        omega
      · intro t ht
        simp only [List.mem_cons] at ht
        rcases ht with h | h
        · subst h
          exact ⟨by omega, Nat.min_le_left _ _⟩
        · exact hrec.2 t h

/-- Claim C3: when the rendered height exceeds the usable page height
(`canvasHeight * USABLE_WIDTH > USABLE_HEIGHT * canvasWidth`, the exact
rational form of `totalImgHeightMm > USABLE_HEIGHT`), the slicing loop of
`addCanvasToPdf` produces successive strips that partition the canvas's
pixel rows exactly — their heights sum to the full canvas height with no
overlap and no gap — each strip is non-empty and at most one usable page
height in pixels (`t * USABLE_WIDTH ≤ USABLE_HEIGHT * canvasWidth`, i.e.
`t ≤ USABLE_HEIGHT · pxPerMm`), for any number of resulting pages. -/
theorem addCanvasToPdf_pagination_conservation (W H : Nat) (hW : 1 ≤ W)
    (hover : USABLE_HEIGHT * W < H * USABLE_WIDTH) :
    (addCanvasToPdfStrips W H).sum = H
  ∧ (∀ t ∈ addCanvasToPdfStrips W H,
      1 ≤ t ∧ t * USABLE_WIDTH ≤ USABLE_HEIGHT * W)
  ∧ addCanvasToPdfStrips W H ≠ [] := by
  have hUW : USABLE_WIDTH = 186 := rfl
  have hUH : USABLE_HEIGHT = 271 := rfl
  have hstrip : 1 ≤ stripHeightPx W := by
    unfold stripHeightPx
    rw [hUW, hUH]
    have h186 : 186 ≤ 271 * W := by omega
    exact (Nat.one_le_div_iff (by norm_num)).mpr h186
  have hH : 1 ≤ H := by
    rcases Nat.eq_zero_or_pos H with h | h
    · subst h
      simp at hover
    · exact h
  have hne : ¬ H * USABLE_WIDTH ≤ USABLE_HEIGHT * W := by omega
  have hstrips : addCanvasToPdfStrips W H
      = sliceStripsGo (stripHeightPx W) H H := by
    unfold addCanvasToPdfStrips
    rw [if_neg hne]
  obtain ⟨h1, h2⟩ := sliceStrips_spec (stripHeightPx W) hstrip H H le_rfl
  rw [hstrips]
  refine ⟨h1, ?_, ?_⟩
  · intro t ht
    obtain ⟨htl, htu⟩ := h2 t ht
    refine ⟨htl, ?_⟩
    calc t * USABLE_WIDTH ≤ stripHeightPx W * USABLE_WIDTH :=
          Nat.mul_le_mul_right _ htu
      _ ≤ USABLE_HEIGHT * W := by
          unfold stripHeightPx
          exact Nat.div_mul_le_self _ _
  · intro hnil
    rw [hnil] at h1
    simp at h1
    omega

/-- Claim C3, witness: a 1588-pixel-wide canvas (794 CSS pixels at scale 2)
of height 5000 overflows one page; the theorem instantiated there. -/
theorem addCanvasToPdf_pagination_conservation_witness :
    (addCanvasToPdfStrips 1588 5000).sum = 5000
  ∧ (∀ t ∈ addCanvasToPdfStrips 1588 5000,
      1 ≤ t ∧ t * USABLE_WIDTH ≤ USABLE_HEIGHT * 1588)
  ∧ addCanvasToPdfStrips 1588 5000 ≠ [] :=
  addCanvasToPdf_pagination_conservation 1588 5000 (by decide) (by decide)

/-! ## Claim C9 — translation guards -/

/-- Claim C9, counterexample: the claim requires an empty target language to
be rejected with an error on every call; the code checks the empty-input and
service-availability guards first, so a call with empty text and empty
target language (or an unavailable service) returns the input unchanged
instead of throwing. -/
theorem translateText_counterexample :
    translateText true (fun _ _ => Except.error "service failure") "" ""
      = Except.ok ""
  ∧ translateText false (fun _ _ => Except.error "service failure") "hi" ""
      = Except.ok "hi" := by
  constructor <;> rfl

/-- Claim C9 (amended): `translateText` returns the input unchanged whenever
the service is unavailable (identity, never a failure) and whenever the
input text is blank (empty-input safety, which takes precedence); the empty
target language is rejected as a usage error exactly when the service is
available and the text is non-blank. -/
theorem translateText_guards (svc : String → String → Except String String)
    (av : Bool) (text targetLanguage : String) :
    (av = false → translateText av svc text targetLanguage = Except.ok text)
  ∧ (jsTrim text = "" → translateText av svc text targetLanguage = Except.ok text)
  ∧ (av = true → jsTrim text ≠ "" → jsTrim targetLanguage = "" →
      translateText av svc text targetLanguage
        = Except.error "Target language is required") := by
  refine ⟨?_, ?_, ?_⟩
  · intro h
    simp [translateText, h]
  · intro h
    cases av <;> simp [translateText, h]
  · intro hav ht htl
    simp [translateText, hav, ht, htl]

/-- Claim C9, witness: the amended theorem applied at concrete calls. -/
theorem translateText_guards_witness :
    translateText true (fun _ _ => Except.error "boom") "hello" ""
      = Except.error "Target language is required"
  ∧ translateText false (fun _ _ => Except.error "boom") "hello" "French"
      = Except.ok "hello"
  ∧ translateText true (fun _ _ => Except.error "boom") "   " "French"
      = Except.ok "   " :=
  ⟨(translateText_guards (fun _ _ => Except.error "boom") true "hello" "").2.2
      rfl (by decide) (by decide),
   (translateText_guards (fun _ _ => Except.error "boom") false "hello" "French").1
      rfl,
   (translateText_guards (fun _ _ => Except.error "boom") true "   " "French").2.1
      (by decide)⟩

/-! ## Claim C4 — duplicate metadata lines -/

/-- The seven metadata keys of `metaPatterns`, colon included. -/
def metaKeys : List String :=
  ["Overall Risk:", "Impact:", "Exploitability:", "Finding ID:",
   "Component:", "Category:", "Status:"]

/-- The issue-record field that a metadata key is parsed into. -/
def metaProj (key : String) (r : IssueRec) : String :=
  if key = "Overall Risk:" then r.overallRisk
  else if key = "Impact:" then r.impact
  else if key = "Exploitability:" then r.exploitability
  else if key = "Finding ID:" then r.findingId
  else if key = "Component:" then r.component
  else if key = "Category:" then r.category
  else if key = "Status:" then r.status
  else ""

theorem metaProj_parseIssue (key : String) (hkey : key ∈ metaKeys)
    (md : String) :
    metaProj key (parseIssue md) = metaValue key (splitNL md) := by
  simp only [metaKeys, List.mem_cons, List.not_mem_nil, or_false] at hkey
  rcases hkey with h | h | h | h | h | h | h <;> subst h <;> rfl

/-- Claim C4, counterexample: with two `Overall Risk:` lines the parser
keeps the first occurrence (`String.match` with a non-global regex returns
the first match in document order), not the last one the claim asserts. -/
theorem duplicateMeta_counterexample :
    (parseIssue "Overall Risk: High\nOverall Risk: Low").overallRisk = "High"
  ∧ ("High" : String) ≠ "Low" := by
  constructor
  · rfl
  · decide

/-- Claim C4 (amended): for every metadata key, the parser assigns the field
from the FIRST matching line in the document — lines before it that do not
match the key's pattern are skipped, and any later duplicate occurrences are
ignored — with this first-match policy applied uniformly to all seven
metadata fields. -/
theorem duplicateMeta_first_wins (key : String) (hkey : key ∈ metaKeys)
    (md : String) (pre : List String) (line : String) (rest : List String)
    (hsplit : splitNL md = pre ++ line :: rest)
    (hpre : ∀ l ∈ pre, matchKeyLine key l = none)
    (v : String) (hline : matchKeyLine key line = some v) :
    metaProj key (parseIssue md) = jsTrim v := by
  rw [metaProj_parseIssue key hkey md]
  unfold metaValue
  rw [hsplit, firstSome_append_none _ _ _ hpre,
    firstSome_cons_some _ _ _ _ hline]

/-- Claim C4, witness: the amended theorem applied to a concrete document
with a duplicated `Overall Risk:` line. -/
theorem duplicateMeta_first_wins_witness :
    metaProj "Overall Risk:"
      (parseIssue "Overall Risk: High\nOverall Risk: Low") = jsTrim "High" :=
  duplicateMeta_first_wins "Overall Risk:" (by decide)
    "Overall Risk: High\nOverall Risk: Low"
    [] "Overall Risk: High" ["Overall Risk: Low"]
    (by rfl) (by intro l hl; simp at hl) "High" (by rfl)

/-! ## Claim C7 — the parser never fails and defaults every absent field -/

theorem mkExtraRow_no_pipe (v : String) (h : ∀ c ∈ v.data, c ≠ '|') :
    mkExtraRow v = { title := jsTrim v, severity := "Medium" } := by
  unfold mkExtraRow
  rw [splitCh_eq_single '|' v.data h]
  rfl

/-- Claim C7: `parseIssue` is a total function — in this embedding it is
defined by structural recursion and never throws — and every field whose
grammar element is absent is the empty string: the empty document yields the
all-empty record; a missing title pattern, missing metadata line, or missing
section key each leave their field empty; no `Additional Issue:` line leaves
`extraRows` empty; and an `Additional Issue:` line whose value contains no
pipe separator contributes a row whose severity defaults to `"Medium"`. -/
theorem parseIssue_never_fails_defaults :
    parseIssue "" =
      { title := "", overallRisk := "", impact := "", exploitability := "",
        findingId := "", component := "", category := "", status := "",
        impactDetails := "", description := "", evidence := "",
        codeExample := "", codeLanguage := "", exampleScenario := "",
        recommendation := "", extraRows := [] }
  ∧ (∀ md : String,
      (firstSome matchTitleLine (splitNL md) = none → (parseIssue md).title = "")
    ∧ (∀ key ∈ metaKeys, (∀ l ∈ splitNL md, matchKeyLine key l = none) →
        metaProj key (parseIssue md) = "")
    ∧ ((∀ l ∈ splitNL md, matchKeyLine "Additional Issue:" l = none) →
        (parseIssue md).extraRows = [])
    ∧ (getSection (splitSections (splitNL md)) "impact details" = none →
        (parseIssue md).impactDetails = "")
    ∧ (getSection (splitSections (splitNL md)) "description" = none →
        (parseIssue md).description = "" ∧ (parseIssue md).evidence = "")
    ∧ (getSection (splitSections (splitNL md)) "code example" = none →
        (parseIssue md).codeExample = "" ∧ (parseIssue md).codeLanguage = "")
    ∧ (getSection (splitSections (splitNL md)) "example issue scenario" = none →
        (parseIssue md).exampleScenario = "")
    ∧ (getSection (splitSections (splitNL md)) "recommendation" = none →
        (parseIssue md).recommendation = "")
    ∧ (∀ l ∈ splitNL md, ∀ v, matchKeyLine "Additional Issue:" l = some v →
        (∀ c ∈ v.data, c ≠ '|') →
        ({ title := jsTrim v, severity := "Medium" } : ExtraRow)
          ∈ (parseIssue md).extraRows)) := by
  refine ⟨by decide, fun md => ⟨?_, ?_, ?_, ?_, ?_, ?_, ?_, ?_, ?_⟩⟩
  · intro h
    have hr : (parseIssue md).title =
        (match firstSome matchTitleLine (splitNL md) with
         | some v => jsTrim v
         | none => "") := rfl
    rw [hr, h]
  · intro key hk h
    rw [metaProj_parseIssue key hk md]
    unfold metaValue
    rw [firstSome_none _ _ h]
  · intro h
    have hr : (parseIssue md).extraRows =
        ((splitNL md).filterMap (matchKeyLine "Additional Issue:")).map
          mkExtraRow := rfl
    rw [hr]
    have : (splitNL md).filterMap (matchKeyLine "Additional Issue:") = [] := by
      rw [List.filterMap_eq_nil_iff]
      exact h
    rw [this]
    rfl
  · intro h
    have hr : (parseIssue md).impactDetails =
        (match getSection (splitSections (splitNL md)) "impact details" with
         | some c => jsTrim c
         | none => "") := rfl
    rw [hr, h]
  · intro h
    constructor
    · have hr : (parseIssue md).description =
          (match getSection (splitSections (splitNL md)) "description" with
           | some c => jsTrim (extractMainContent c)
           | none => "") := rfl
      rw [hr, h]
    · have hr : (parseIssue md).evidence =
          (match getSection (splitSections (splitNL md)) "description" with
           | some c =>
             (match evidenceOf c with
              | some v => jsTrim v
              | none => "")
           | none => "") := rfl
      rw [hr, h]
  · intro h
    constructor
    · have hr : (parseIssue md).codeExample =
          (match getSection (splitSections (splitNL md)) "code example" with
           | some c =>
             match findCodeBlock c.data with
             | some (lang, body) => (jsTrim body, if lang = "" then "text" else lang)
             | none => (jsTrim c, "")
           | none => (("", "") : String × String)).1 := rfl
      rw [hr, h]
    · have hr : (parseIssue md).codeLanguage =
          (match getSection (splitSections (splitNL md)) "code example" with
           | some c =>
             match findCodeBlock c.data with
             | some (lang, body) => (jsTrim body, if lang = "" then "text" else lang)
             | none => (jsTrim c, "")
           | none => (("", "") : String × String)).2 := rfl
      rw [hr, h]
  · intro h
    have hr : (parseIssue md).exampleScenario =
        (match getSection (splitSections (splitNL md)) "example issue scenario" with
         | some c => jsTrim c
         | none => "") := rfl
    rw [hr, h]
  · intro h
    have hr : (parseIssue md).recommendation =
        (match getSection (splitSections (splitNL md)) "recommendation" with
         | some c => jsTrim c
         | none => "") := rfl
    rw [hr, h]
  · intro l hl v hv hnp
    have hr : (parseIssue md).extraRows =
        ((splitNL md).filterMap (matchKeyLine "Additional Issue:")).map
          mkExtraRow := rfl
    rw [hr, ← mkExtraRow_no_pipe v hnp]
    exact List.mem_map_of_mem _ (List.mem_filterMap.mpr ⟨l, hl, hv⟩)

/-- Claim C7, witness: the theorem applied to a one-line document whose only
content is a pipe-less `Additional Issue:` line. -/
theorem parseIssue_never_fails_defaults_witness :
    (parseIssue "Additional Issue: standalone").title = ""
  ∧ (parseIssue "Additional Issue: standalone").impactDetails = ""
  ∧ ({ title := jsTrim "standalone", severity := "Medium" } : ExtraRow)
      ∈ (parseIssue "Additional Issue: standalone").extraRows :=
  ⟨(parseIssue_never_fails_defaults.2 "Additional Issue: standalone").1
      (by decide),
   (parseIssue_never_fails_defaults.2 "Additional Issue: standalone").2.2.2.1
      (by decide),
   (parseIssue_never_fails_defaults.2 "Additional Issue: standalone").2.2.2.2.2.2.2.2
      "Additional Issue: standalone" (by decide) "standalone" (by decide)
      (by decide)⟩

/-! ## Sorting lemmas for `sortJs` (stable sort) -/

theorem insertJs_perm (lt : α → α → Bool) (a : α) (l : List α) :
    List.Perm (insertJs lt a l) (a :: l) := by
  induction l with
  | nil => simp [insertJs]
  | cons b bs ih =>
    unfold insertJs
    split
    · exact ((ih.cons b).trans (List.Perm.swap a b bs))
    · exact List.Perm.refl _

theorem sortJs_perm (lt : α → α → Bool) (l : List α) :
    List.Perm (sortJs lt l) l := by
  induction l with
  | nil => exact List.Perm.refl _
  | cons a as ih =>
    unfold sortJs at ih ⊢
    simp only [List.foldr_cons]
    exact (insertJs_perm lt a _).trans (ih.cons a)

theorem insertJs_pairwise (lt : α → α → Bool)
    (hasym : ∀ a b, lt a b = true → lt b a = false)
    (htrans : ∀ a b c, lt b a = false → lt c b = false → lt c a = false)
    (a : α) (l : List α) (h : List.Pairwise (fun x y => lt y x = false) l) :
    List.Pairwise (fun x y => lt y x = false) (insertJs lt a l) := by
  induction l with
  | nil => simp [insertJs]
  | cons b bs ih =>
    rcases List.pairwise_cons.mp h with ⟨hb, hbs⟩
    unfold insertJs
    split
    case isTrue hlt =>
      refine List.pairwise_cons.mpr ⟨?_, ih hbs⟩
      intro x hx
      have hx' : x ∈ a :: bs := (insertJs_perm lt a bs).mem_iff.mp hx
      rcases List.mem_cons.mp hx' with h | h
      · subst h
        exact hasym b x hlt
      · exact hb x h
    case isFalse hlt =>
      refine List.pairwise_cons.mpr ⟨?_, h⟩
      intro x hx
      rcases List.mem_cons.mp hx with h' | h'
      · subst h'
        simpa using hlt
      · exact htrans a b x (by simpa using hlt) (hb x h')

theorem sortJs_pairwise (lt : α → α → Bool)
    (hasym : ∀ a b, lt a b = true → lt b a = false)
    (htrans : ∀ a b c, lt b a = false → lt c b = false → lt c a = false)
    (l : List α) :
    List.Pairwise (fun x y => lt y x = false) (sortJs lt l) := by
  induction l with
  | nil => simp [sortJs]
  | cons a as ih =>
    unfold sortJs at ih ⊢
    simp only [List.foldr_cons]
    exact insertJs_pairwise lt hasym htrans a _ ih

theorem insertJs_filter_key (key : α → Nat) (a : α) (l : List α) (r : Nat) :
    (insertJs (fun x y => decide (key x < key y)) a l).filter
        (fun x => decide (key x = r))
      = if key a = r then
          a :: l.filter (fun x => decide (key x = r))
        else l.filter (fun x => decide (key x = r)) := by
  induction l with
  | nil =>
    by_cases h : key a = r <;> simp [insertJs, h]
  | cons b bs ih =>
    unfold insertJs
    split
    case isTrue hlt =>
      have hlt' : key b < key a := by simpa using hlt
      simp only [List.filter_cons, ih]
      by_cases hbr : key b = r
      · have har : ¬ key a = r := by omega
        simp [hbr, har]
      · by_cases har : key a = r
        · simp [hbr, har]
        · simp [hbr, har]
    case isFalse hlt =>
      by_cases har : key a = r
      · simp [List.filter_cons, har]
      · simp [List.filter_cons, har]

theorem sortJs_filter_key (key : α → Nat) (l : List α) (r : Nat) :
    (sortJs (fun x y => decide (key x < key y)) l).filter
        (fun x => decide (key x = r))
      = l.filter (fun x => decide (key x = r)) := by
  induction l with
  | nil => rfl
  | cons a as ih =>
    unfold sortJs at ih ⊢
    simp only [List.foldr_cons]
    rw [insertJs_filter_key, ih]
    by_cases h : key a = r
    · simp [List.filter_cons, h]
    · simp [List.filter_cons, h]

/-! ## Lemmas about `firstOccur` and the grouping partition -/

theorem firstOccurAux_mem (l : List String) :
    ∀ (seen : List String) (a : String),
      a ∈ firstOccurAux seen l ↔ a ∈ l ∧ a ∉ seen := by
  induction l with
  | nil => simp [firstOccurAux]
  | cons k ks ih =>
    intro seen a
    unfold firstOccurAux
    by_cases hk : k ∈ seen
    · rw [if_pos hk, ih]
      constructor
      · rintro ⟨h1, h2⟩
        exact ⟨by simp [h1], h2⟩
      · rintro ⟨h1, h2⟩
        rcases List.mem_cons.mp h1 with rfl | h1
        · exact absurd hk h2
        · exact ⟨h1, h2⟩
    · rw [if_neg hk]
      by_cases hak : a = k
      · subst hak
        simp [hk]
      · simp only [List.mem_cons, hak, false_or]
        rw [ih]
        simp [List.mem_cons, hak]

theorem firstOccur_mem (l : List String) (a : String) :
    a ∈ firstOccur l ↔ a ∈ l := by
  unfold firstOccur
  rw [firstOccurAux_mem]
  simp

theorem firstOccurAux_nodup (l : List String) :
    ∀ seen : List String, (firstOccurAux seen l).Nodup := by
  induction l with
  | nil => simp [firstOccurAux]
  | cons k ks ih =>
    intro seen
    unfold firstOccurAux
    by_cases hk : k ∈ seen
    · rw [if_pos hk]
      exact ih seen
    · rw [if_neg hk]
      refine List.nodup_cons.mpr ⟨?_, ih (k :: seen)⟩
      intro hmem
      have := (firstOccurAux_mem ks (k :: seen) k).mp hmem
      simp at this

theorem firstOccur_nodup (l : List String) : (firstOccur l).Nodup :=
  firstOccurAux_nodup l []

theorem count_filter_eq (p : α → Bool) (x : α) (l : List α) [DecidableEq α] :
    List.count x (l.filter p) = if p x then List.count x l else 0 := by
  by_cases h : p x
  · rw [if_pos h, List.count_filter h]
  · rw [if_neg h, List.count_eq_zero.mpr]
    intro hx
    exact h (List.of_mem_filter hx)

theorem sum_map_ite_count (keys : List String) (t : String) (c : Nat) :
    ((keys.map fun k => if t = k then c else 0).sum) = keys.count t * c := by
  induction keys with
  | nil => simp
  | cons k ks ih =>
    simp only [List.map_cons, List.sum_cons, ih, List.count_cons]
    by_cases h : t = k
    · simp [h, Nat.add_mul, Nat.add_comm]
    · have : ¬ (k = t) := fun hh => h hh.symm
      simp [h, this]

theorem flatMap_filter_catKey_perm (issues : List Issue) :
    List.Perm
      ((firstOccur (issues.map catKeyOf)).flatMap fun k =>
        issues.filter fun i => catKeyOf i = k)
      issues := by
  rw [List.perm_iff_count]
  intro x
  rw [List.flatMap_def, List.count_flatten, List.map_map]
  have hmap : ((firstOccur (issues.map catKeyOf)).map
      (List.count x ∘ fun k => issues.filter fun i => catKeyOf i = k))
      = (firstOccur (issues.map catKeyOf)).map
        (fun k => if catKeyOf x = k then List.count x issues else 0) := by
    apply List.map_congr_left
    intro k _
    simp only [Function.comp_apply]
    rw [count_filter_eq]
    simp
  rw [hmap, sum_map_ite_count]
  by_cases hx : x ∈ issues
  · have hk : catKeyOf x ∈ firstOccur (issues.map catKeyOf) := by
      rw [firstOccur_mem]
      exact List.mem_map_of_mem _ hx
    rw [List.count_eq_one_of_mem (firstOccur_nodup _) hk, Nat.one_mul]
  · have h0 : List.count x issues = 0 := List.count_eq_zero.mpr hx
    rw [h0, Nat.mul_zero]

theorem flatten_map_perm_of_inner (f g : α → List β) (l : List α)
    (h : ∀ a ∈ l, List.Perm (f a) (g a)) :
    List.Perm (l.map f).flatten (l.map g).flatten := by
  induction l with
  | nil => exact List.Perm.refl _
  | cons a as ih =>
    simp only [List.map_cons, List.flatten_cons]
    exact (h a (by simp)).append (ih fun x hx => h x (by simp [hx]))

theorem groupBy_flatMap_perm (lc : String → String → Int) (issues : List Issue) :
    List.Perm ((groupByCategory lc issues).flatMap fun g => g.issues) issues := by
  unfold groupByCategory
  rw [List.flatMap_def, List.map_map]
  have h1 : List.Perm
      ((sortJs (fun a b => decide (lc a b < 0))
          (firstOccur (issues.map catKeyOf))).map
        ((fun g => g.issues) ∘ fun k =>
          ({ category := k
             issues := sortJs
               (fun a b =>
                 decide (severityRank a.overallRisk < severityRank b.overallRisk))
               (issues.filter fun i => catKeyOf i = k) } : GroupedCategory)))
      ((firstOccur (issues.map catKeyOf)).map
        ((fun g => g.issues) ∘ fun k =>
          ({ category := k
             issues := sortJs
               (fun a b =>
                 decide (severityRank a.overallRisk < severityRank b.overallRisk))
               (issues.filter fun i => catKeyOf i = k) } : GroupedCategory))) :=
    List.Perm.map _ (sortJs_perm _ _)
  refine (h1.flatten).trans ?_
  simp only [Function.comp_def]
  refine (flatten_map_perm_of_inner _ (fun k => issues.filter fun i => catKeyOf i = k)
      _ ?_).trans ?_
  · intro k _
    exact sortJs_perm _ _
  · rw [← List.flatMap_def]
    exact flatMap_filter_catKey_perm issues

/-! ## Claims C1 and C10 — grouping order and partition -/

theorem lcLex_le_iff (a b : String) : lcLex a b ≤ 0 ↔ a.data ≤ b.data := by
  unfold lcLex
  rcases lt_trichotomy a.data b.data with h | h | h
  · simp [h, le_of_lt h]
  · simp [h]
  · simp [asymm h, h, not_le.mpr h]

theorem lcLex_sym (a b : String) : lcLex a b < 0 ↔ 0 < lcLex b a := by
  unfold lcLex
  rcases lt_trichotomy a.data b.data with h | h | h
  · simp [h, asymm h]
  · simp [h]
  · simp [asymm h, h]

theorem lcLex_trans (a b c : String)
    (h1 : lcLex a b ≤ 0) (h2 : lcLex b c ≤ 0) : lcLex a c ≤ 0 :=
  (lcLex_le_iff a c).mpr (le_trans ((lcLex_le_iff a b).mp h1)
    ((lcLex_le_iff b c).mp h2))

/-- Claim C1: `groupByCategory` returns the categories sorted by the locale
comparator (any comparator with JavaScript's consistency properties, of
which `localeCompare` is one), and within each category the issues sorted by
`severityRank` of `overallRisk` — Critical 0, High 1, Medium 2, Low 3,
Info/Informational 4 case-insensitively, anything else 5 — stably: for every
rank, the issues of that rank appear in exactly the input's relative
order (the filter characterization of a stable sort). -/
theorem groupByCategory_sorted_stable (lc : String → String → Int)
    (hsym : ∀ a b, lc a b < 0 ↔ 0 < lc b a)
    (htrans : ∀ a b c, lc a b ≤ 0 → lc b c ≤ 0 → lc a c ≤ 0)
    (issues : List Issue) :
    List.Pairwise (fun g₁ g₂ => lc g₁.category g₂.category ≤ 0)
      (groupByCategory lc issues)
  ∧ (∀ g ∈ groupByCategory lc issues,
      List.Pairwise
        (fun a b => severityRank a.overallRisk ≤ severityRank b.overallRisk)
        g.issues)
  ∧ (∀ g ∈ groupByCategory lc issues, ∀ r : Nat,
      g.issues.filter (fun i => severityRank i.overallRisk = r)
        = (issues.filter fun i => catKeyOf i = g.category).filter
            (fun i => severityRank i.overallRisk = r)) := by
  have hasymC : ∀ a b : String,
      decide (lc a b < 0) = true → decide (lc b a < 0) = false := by
    intro a b h
    simp only [decide_eq_true_eq] at h
    have := (hsym a b).mp h
    simp only [decide_eq_false_iff_not]
    omega
  have htransC : ∀ a b c : String,
      decide (lc b a < 0) = false → decide (lc c b < 0) = false →
      decide (lc c a < 0) = false := by
    intro a b c h1 h2
    simp only [decide_eq_false_iff_not, not_lt] at h1 h2 ⊢
    have hab : lc a b ≤ 0 := by
      by_contra hab
      have := (hsym b a).mpr (by omega)
      omega
    have hbc : lc b c ≤ 0 := by
      by_contra hbc
      have := (hsym c b).mpr (by omega)
      omega
    have hac := htrans a b c hab hbc
    by_contra hca
    have := (hsym c a).mp (by omega)
    omega
  have hasymR : ∀ a b : Issue,
      decide (severityRank a.overallRisk < severityRank b.overallRisk) = true →
      decide (severityRank b.overallRisk < severityRank a.overallRisk) = false := by
    intro a b h
    simp only [decide_eq_true_eq] at h
    simp only [decide_eq_false_iff_not]
    omega
  have htransR : ∀ a b c : Issue,
      decide (severityRank b.overallRisk < severityRank a.overallRisk) = false →
      decide (severityRank c.overallRisk < severityRank b.overallRisk) = false →
      decide (severityRank c.overallRisk < severityRank a.overallRisk) = false := by
    intro a b c h1 h2
    simp only [decide_eq_false_iff_not, not_lt] at h1 h2 ⊢
    omega
  refine ⟨?_, ?_, ?_⟩
  · unfold groupByCategory
    rw [List.pairwise_map]
    exact (sortJs_pairwise _ hasymC htransC _).imp (by
      intro a b h
      show lc a b ≤ 0
      simp only [decide_eq_false_iff_not, not_lt] at h
      by_contra hab
      have := (hsym b a).mpr (by omega)
      omega)
  · intro g hg
    unfold groupByCategory at hg
    obtain ⟨k, hk, rfl⟩ := List.mem_map.mp hg
    exact (sortJs_pairwise _ hasymR htransR _).imp (by
      intro a b h
      show severityRank a.overallRisk ≤ severityRank b.overallRisk
      simp only [decide_eq_false_iff_not, not_lt] at h
      omega)
  · intro g hg r
    unfold groupByCategory at hg
    obtain ⟨k, hk, rfl⟩ := List.mem_map.mp hg
    exact sortJs_filter_key (fun i : Issue => severityRank i.overallRisk) _ r

/-- Claim C1, witness: the theorem applied to `sampleIssues` with the
code-point comparator. -/
theorem groupByCategory_sorted_stable_witness :
    List.Pairwise (fun g₁ g₂ => lcLex g₁.category g₂.category ≤ 0)
      (groupByCategory lcLex sampleIssues)
  ∧ (∀ g ∈ groupByCategory lcLex sampleIssues,
      List.Pairwise
        (fun a b => severityRank a.overallRisk ≤ severityRank b.overallRisk)
        g.issues)
  ∧ (∀ g ∈ groupByCategory lcLex sampleIssues, ∀ r : Nat,
      g.issues.filter (fun i => severityRank i.overallRisk = r)
        = (sampleIssues.filter fun i => catKeyOf i = g.category).filter
            (fun i => severityRank i.overallRisk = r)) :=
  groupByCategory_sorted_stable lcLex lcLex_sym lcLex_trans sampleIssues

/-- Claim C10: concatenating the issues of all groups returned by
`groupByCategory` is a permutation of the input (each record kept exactly
once, none dropped or duplicated), every returned group is non-empty, and
no two returned groups share a category name — for any comparator. -/
theorem groupByCategory_partition (lc : String → String → Int)
    (issues : List Issue) :
    List.Perm ((groupByCategory lc issues).flatMap fun g => g.issues) issues
  ∧ (∀ g ∈ groupByCategory lc issues, g.issues ≠ [])
  ∧ ((groupByCategory lc issues).map (fun g => g.category)).Nodup := by
  refine ⟨groupBy_flatMap_perm lc issues, ?_, ?_⟩
  · intro g hg
    unfold groupByCategory at hg
    obtain ⟨k, hk, rfl⟩ := List.mem_map.mp hg
    have hk' : k ∈ firstOccur (issues.map catKeyOf) :=
      (sortJs_perm _ _).mem_iff.mp hk
    have hk'' : k ∈ issues.map catKeyOf := (firstOccur_mem _ k).mp hk'
    obtain ⟨i, hi, hcat⟩ := List.mem_map.mp hk''
    intro hnil
    have hnil' : sortJs
        (fun a b =>
          decide (severityRank a.overallRisk < severityRank b.overallRisk))
        (issues.filter fun i => catKeyOf i = k) = [] := hnil
    have hperm := sortJs_perm
      (fun a b =>
        decide (severityRank a.overallRisk < severityRank b.overallRisk))
      (issues.filter fun i => catKeyOf i = k)
    rw [hnil'] at hperm
    have hfil : (issues.filter fun j => catKeyOf j = k) = [] :=
      hperm.symm.eq_nil
    have hmemf : i ∈ issues.filter fun j => catKeyOf j = k :=
      List.mem_filter.mpr ⟨hi, by simp [hcat]⟩
    rw [hfil] at hmemf
    simp at hmemf
  · unfold groupByCategory
    rw [List.map_map]
    have hid : ((fun g : GroupedCategory => g.category) ∘ fun k =>
        ({ category := k
           issues := sortJs
             (fun a b =>
               decide (severityRank a.overallRisk < severityRank b.overallRisk))
             (issues.filter fun i => catKeyOf i = k) } : GroupedCategory))
        = fun k => k := by
      funext k
      rfl
    rw [hid]
    have := (sortJs_perm (fun a b => decide (lc a b < 0))
      (firstOccur (issues.map catKeyOf))).symm.nodup
      (firstOccur_nodup _)
    simpa using this

/-- Claim C10, witness: the theorem applied to `sampleIssues`, with the
non-emptiness and membership hypotheses discharged at a concrete group. -/
theorem groupByCategory_partition_witness :
    List.Perm
      ((groupByCategory lcLex sampleIssues).flatMap fun g => g.issues)
      sampleIssues
  ∧ ({ category := "A", issues := [sampleIssue 2 "A" "High"] } :
      GroupedCategory).issues ≠ []
  ∧ ((groupByCategory lcLex sampleIssues).map (fun g => g.category)).Nodup :=
  ⟨(groupByCategory_partition lcLex sampleIssues).1,
   (groupByCategory_partition lcLex sampleIssues).2.1
     { category := "A", issues := [sampleIssue 2 "A" "High"] } (by decide),
   (groupByCategory_partition lcLex sampleIssues).2.2⟩

/-! ## Claim C8 — reindexing scenario -/

/-- Claim C8: when the canonical grouped order consists of exactly two
categories holding 2 and 3 issues, reindexing with prefix `"ABC"` rewrites
the finding ids, in input order and leaving all other fields untouched, to
`ABC-0001`, `ABC-0002` for the first category's issues in order and
`ABC-1001`, `ABC-1002`, `ABC-1003` for the second category's issues in
order (issue ids assumed distinct, as the upload path guarantees). -/
theorem reindexFindingIds_scenario (lc : String → String → Int)
    (issues : List Issue) (hids : (issues.map Issue._id).Nodup)
    (g0 g1 : GroupedCategory) (a b c d e : Issue)
    (hgs : groupByCategory lc issues = [g0, g1])
    (h0 : g0.issues = [a, b]) (h1 : g1.issues = [c, d, e]) :
    (reindexFindingIds lc "ABC" issues).map (fun i => (i._id, i.findingId))
      = issues.map (fun i =>
          (i._id,
            if i._id = a._id then "ABC-0001"
            else if i._id = b._id then "ABC-0002"
            else if i._id = c._id then "ABC-1001"
            else if i._id = d._id then "ABC-1002"
            else if i._id = e._id then "ABC-1003"
            else i.findingId)) := by
  have hperm : List.Perm [a, b, c, d, e] issues := by
    have h := groupBy_flatMap_perm lc issues
    rw [hgs] at h
    simpa [h0, h1] using h
  have hnd : List.Nodup [a._id, b._id, c._id, d._id, e._id] := by
    have := (hperm.map Issue._id).symm.nodup hids
    simpa using this
  obtain ⟨ha', hnd1⟩ := List.pairwise_cons.mp hnd
  obtain ⟨hb', hnd2⟩ := List.pairwise_cons.mp hnd1
  obtain ⟨hc', hnd3⟩ := List.pairwise_cons.mp hnd2
  obtain ⟨hd', -⟩ := List.pairwise_cons.mp hnd3
  have hab := ha' b._id (by simp)
  have hac := ha' c._id (by simp)
  have had := ha' d._id (by simp)
  have hae := ha' e._id (by simp)
  have hbc := hb' c._id (by simp)
  have hbd := hb' d._id (by simp)
  have hbe := hb' e._id (by simp)
  have hcd := hc' d._id (by simp)
  have hce := hc' e._id (by simp)
  have hde := hd' e._id (by simp)
  have e1 : "ABC" ++ "-" ++ padStart4 (toString (0 * 1000 + 0 + 1))
      = "ABC-0001" := by decide
  have e2 : "ABC" ++ "-" ++ padStart4 (toString (0 * 1000 + 1 + 1))
      = "ABC-0002" := by decide
  have e3 : "ABC" ++ "-" ++ padStart4 (toString (1 * 1000 + 0 + 1))
      = "ABC-1001" := by decide
  have e4 : "ABC" ++ "-" ++ padStart4 (toString (1 * 1000 + 1 + 1))
      = "ABC-1002" := by decide
  have e5 : "ABC" ++ "-" ++ padStart4 (toString (1 * 1000 + 2 + 1))
      = "ABC-1003" := by decide
  have hmap : reindexIdMap "ABC" (groupByCategory lc issues)
      = [(a._id, "ABC-0001"), (b._id, "ABC-0002"), (c._id, "ABC-1001"),
         (d._id, "ABC-1002"), (e._id, "ABC-1003")] := by
    rw [hgs]
    show reindexIdMapGo "ABC" 0 [g0, g1] = _
    simp only [reindexIdMapGo, issueIdsGo, h0, h1, e1, e2, e3, e4, e5]
    simp
  have hrw : reindexFindingIds lc "ABC" issues
      = issues.map (fun iss =>
          match lookupLast
              (reindexIdMap "ABC" (groupByCategory lc issues)) iss._id with
          | some fid => { iss with findingId := fid }
          | none => iss) := rfl
  rw [hrw, List.map_map]
  apply List.map_congr_left
  intro iss hiss
  have hin : iss ∈ [a, b, c, d, e] := hperm.mem_iff.mpr hiss
  simp only [List.mem_cons, List.not_mem_nil, or_false] at hin
  simp only [Function.comp_apply, hmap]
  rcases hin with rfl | rfl | rfl | rfl | rfl
  · simp [lookupLast, List.filter_cons, Ne.symm hab, Ne.symm hac,
      Ne.symm had, Ne.symm hae]
  · simp [lookupLast, List.filter_cons, hab, Ne.symm hab, Ne.symm hbc,
      Ne.symm hbd, Ne.symm hbe]
  · simp [lookupLast, List.filter_cons, hac, hbc, Ne.symm hac, Ne.symm hbc,
      Ne.symm hcd, Ne.symm hce]
  · simp [lookupLast, List.filter_cons, had, hbd, hcd, Ne.symm had,
      Ne.symm hbd, Ne.symm hcd, Ne.symm hde]
  · simp [lookupLast, List.filter_cons, hae, hbe, hce, hde, Ne.symm hae,
      Ne.symm hbe, Ne.symm hce, Ne.symm hde]

/-- Claim C8, witness: the theorem applied to `reindexSample` (categories
`A` with 2 issues and `B` with 3, in canonical order), giving the concrete
assignment `ABC-0001`, `ABC-0002`, `ABC-1001`, `ABC-1002`, `ABC-1003`. -/
theorem reindexFindingIds_scenario_witness :
    (reindexFindingIds lcLex "ABC" reindexSample).map
        (fun i => (i._id, i.findingId))
      = reindexSample.map (fun i =>
          (i._id,
            if i._id = (sampleIssue 2 "A" "High")._id then "ABC-0001"
            else if i._id = (sampleIssue 4 "A" "Medium")._id then "ABC-0002"
            else if i._id = (sampleIssue 3 "B" "Critical")._id then "ABC-1001"
            else if i._id = (sampleIssue 5 "B" "Medium")._id then "ABC-1002"
            else if i._id = (sampleIssue 1 "B" "Low")._id then "ABC-1003"
            else i.findingId)) :=
  reindexFindingIds_scenario lcLex reindexSample (by decide)
    { category := "A",
      issues := [sampleIssue 2 "A" "High", sampleIssue 4 "A" "Medium"] }
    { category := "B",
      issues := [sampleIssue 3 "B" "Critical", sampleIssue 5 "B" "Medium",
                 sampleIssue 1 "B" "Low"] }
    (sampleIssue 2 "A" "High") (sampleIssue 4 "A" "Medium")
    (sampleIssue 3 "B" "Critical") (sampleIssue 5 "B" "Medium")
    (sampleIssue 1 "B" "Low")
    (by decide) rfl rfl

/-! ## Claim C6 — inline link semantics in the two renderers -/

theorem takeWhile_all (p : Char → Bool) (l : List Char)
    (h : ∀ c ∈ l, p c = true) : l.takeWhile p = l := by
  induction l with
  | nil => rfl
  | cons x xs ih =>
    simp [List.takeWhile, h x (by simp), ih fun c hc => h c (by simp [hc])]

theorem takeWhile_all_head (p : Char → Bool) (t l : List Char)
    (h : ∀ c ∈ t, p c = true) (hl : ∀ c, l.head? = some c → p c = false) :
    (t ++ l).takeWhile p = t := by
  induction t with
  | nil =>
    cases l with
    | nil => rfl
    | cons c cs => simp [List.takeWhile, hl c rfl]
  | cons x xs ih =>
    simp [List.takeWhile, h x (by simp), ih fun c hc => h c (by simp [hc])]

theorem escapeHtml_id (l : List Char)
    (h : ∀ c ∈ l, c ≠ '&' ∧ c ≠ '<' ∧ c ≠ '>') : escapeHtml l = l := by
  induction l with
  | nil => rfl
  | cons x xs ih =>
    obtain ⟨h1, h2, h3⟩ := h x (by simp)
    simp [escapeHtml, escapeHtmlChar, h1, h2, h3] at ih ⊢
    exact ih fun c hc => h c (by simp [hc])

theorem replaceSpan_id (d : Char) (ds : List Char) (excl : Char)
    (o cl : List Char) (l : List Char) (h : ∀ x ∈ l, x ≠ d) :
    replaceSpan (d :: ds) excl o cl l = l := by
  induction l with
  | nil => simp [replaceSpan]
  | cons x xs ih =>
    have hx : (d == x) = false := beq_eq_false_iff_ne.mpr (Ne.symm (h x (by simp)))
    have hpre : (d :: ds).isPrefixOf (x :: xs) = false := by
      simp [List.isPrefixOf, hx]
    rw [replaceSpan, if_neg (by simp [hpre])]
    rw [ih fun c hc => h c (by simp [hc])]

theorem scanLinks_link (emit : List Char → List Char → List Char)
    (t u : List Char) (ht : t ≠ []) (ht2 : ∀ c ∈ t, c ≠ ']')
    (hu : u ≠ []) (hu2 : ∀ c ∈ u, c ≠ ')') :
    scanLinks emit ('[' :: (t ++ (']' :: '(' :: (u ++ [')'])))) = emit t u := by
  have htw : (t ++ (']' :: '(' :: (u ++ [')']))).takeWhile
      (fun x => decide (x ≠ ']')) = t := by
    apply takeWhile_all_head
    · intro c hc
      simp [ht2 c hc]
    · intro c hc
      simp at hc
      simp [← hc]
  have hdrop : (t ++ (']' :: '(' :: (u ++ [')']))).drop t.length
      = ']' :: '(' :: (u ++ [')']) := List.drop_left t _
  have huw : (u ++ [')']).takeWhile (fun x => decide (x ≠ ')')) = u := by
    apply takeWhile_all_head
    · intro c hc
      simp [hu2 c hc]
    · intro c hc
      simp at hc
      simp [← hc]
  have hudrop : (u ++ [')']).drop u.length = [')'] := List.drop_left u _
  rw [scanLinks]
  rw [if_pos rfl]
  simp only [htw, hdrop]
  rw [if_neg (by simp [List.isEmpty_iff, ht])]
  rw [if_pos (by simp [List.isPrefixOf])]
  simp only [List.drop_succ_cons, List.drop_zero, huw, hudrop]
  rw [if_neg (by simp [List.isEmpty_iff, hu])]
  rw [if_pos (by simp)]
  have hlen : ('[' :: (t ++ (']' :: '(' :: (u ++ [')'])))).length
      = t.length + 2 + u.length + 1 + 1 := by
    simp
    omega
  have : (t ++ (']' :: '(' :: (u ++ [')']))).drop
      (t.length + 2 + u.length + 1) = [] := by
    apply List.drop_eq_nil_of_le
    simp
    omega
  rw [this, scanLinks]
  simp

theorem tokenizeInline_plain (c : Char) (cs : List Char)
    (hc1 : c ≠ '`') (hc2 : c ≠ '*') (hcs : ∀ x ∈ cs, x ≠ '`' ∧ x ≠ '*') :
    tokenizeInline (c :: cs) = [c :: cs] := by
  have ht : cs.takeWhile (fun x => decide (x ≠ '`' ∧ x ≠ '*')) = cs :=
    takeWhile_all _ _ fun x hx => by simp [(hcs x hx).1, (hcs x hx).2]
  rw [tokenizeInline]
  · rw [ht, List.drop_length, tokenizeInline]
  all_goals simp_all

theorem strData_append (a b : String) : (a ++ b).data = a.data ++ b.data := rfl

theorem linkDoc_data (t u : String) :
    ("[" ++ t ++ "](" ++ u ++ ")").data
      = '[' :: (t.data ++ (']' :: '(' :: (u.data ++ [')']))) := by
  have h1 : ("[" ++ t ++ "](" ++ u ++ ")").data
      = "[".data ++ (t.data ++ ("](".data ++ (u.data ++ ")".data))) := by
    simp [strData_append, List.append_assoc]
  rw [h1]
  rfl

theorem linkRuns (t u : String)
    (ht : t.data ≠ [])
    (htc : ∀ c ∈ t.data,
      c ≠ ']' ∧ c ≠ '`' ∧ c ≠ '*' ∧ c ≠ '&' ∧ c ≠ '<' ∧ c ≠ '>')
    (hu : u.data ≠ [])
    (huc : ∀ c ∈ u.data,
      c ≠ ')' ∧ c ≠ '`' ∧ c ≠ '*' ∧ c ≠ '&' ∧ c ≠ '<' ∧ c ≠ '>') :
    parseInlineMarkdown ("[" ++ t ++ "](" ++ u ++ ")") = [MdRun.plain t] := by
  have hne : ("[" ++ t ++ "](" ++ u ++ ")") ≠ "" := by
    intro h
    have := congrArg String.data h
    rw [linkDoc_data] at this
    simp at this
  have hrest : ∀ x ∈ t.data ++ (']' :: '(' :: (u.data ++ [')'])),
      x ≠ '`' ∧ x ≠ '*' := by
    intro x hx
    rcases List.mem_append.mp hx with h | h
    · exact ⟨(htc x h).2.1, (htc x h).2.2.1⟩
    · rcases List.mem_cons.mp h with rfl | h
      · exact ⟨by decide, by decide⟩
      · rcases List.mem_cons.mp h with rfl | h
        · exact ⟨by decide, by decide⟩
        · rcases List.mem_append.mp h with h | h
          · exact ⟨(huc x h).2.1, (huc x h).2.2.1⟩
          · simp at h
            subst h
            exact ⟨by decide, by decide⟩
  have hseg : runsOfSegment ('[' :: (t.data ++ (']' :: '(' :: (u.data ++ [')']))))
      = [MdRun.plain t] := by
    have hs := scanLinks_link (fun a _ => a) t.data u.data ht
      (fun c hc => (htc c hc).1) hu (fun c hc => (huc c hc).1)
    unfold runsOfSegment
    rw [if_neg (by simp), if_neg (by simp [List.isPrefixOf]),
      if_neg (by simp)]
    dsimp only
    rw [hs, if_neg (by simp [List.isEmpty_iff, ht])]
  unfold parseInlineMarkdown
  rw [if_neg hne]
  dsimp only
  rw [linkDoc_data,
    tokenizeInline_plain '[' _ (by decide) (by decide) hrest]
  simp only [List.flatMap_cons, List.flatMap_nil, hseg, List.append_nil]
  simp

theorem linkHtml (t u : String)
    (ht : t.data ≠ [])
    (htc : ∀ c ∈ t.data,
      c ≠ ']' ∧ c ≠ '`' ∧ c ≠ '*' ∧ c ≠ '&' ∧ c ≠ '<' ∧ c ≠ '>')
    (hu : u.data ≠ [])
    (huc : ∀ c ∈ u.data,
      c ≠ ')' ∧ c ≠ '`' ∧ c ≠ '*' ∧ c ≠ '&' ∧ c ≠ '<' ∧ c ≠ '>') :
    inlineMarkdownToHtml ("[" ++ t ++ "](" ++ u ++ ")")
      = "<a href=\"" ++ u ++ "\">" ++ t ++ "</a>" := by
  have hne : ("[" ++ t ++ "](" ++ u ++ ")") ≠ "" := by
    intro h
    have := congrArg String.data h
    rw [linkDoc_data] at this
    simp at this
  have hall : ∀ x ∈ '[' :: (t.data ++ (']' :: '(' :: (u.data ++ [')']))),
      x ≠ '&' ∧ x ≠ '<' ∧ x ≠ '>' ∧ x ≠ '`' ∧ x ≠ '*' := by
    intro x hx
    rcases List.mem_cons.mp hx with rfl | hx
    · exact ⟨by decide, by decide, by decide, by decide, by decide⟩
    rcases List.mem_append.mp hx with h | h
    · have := htc x h
      exact ⟨this.2.2.2.1, this.2.2.2.2.1, this.2.2.2.2.2, this.2.1, this.2.2.1⟩
    · rcases List.mem_cons.mp h with rfl | h
      · exact ⟨by decide, by decide, by decide, by decide, by decide⟩
      rcases List.mem_cons.mp h with rfl | h
      · exact ⟨by decide, by decide, by decide, by decide, by decide⟩
      rcases List.mem_append.mp h with h | h
      · have := huc x h
        exact ⟨this.2.2.2.1, this.2.2.2.2.1, this.2.2.2.2.2, this.2.1, this.2.2.1⟩
      · simp at h
        subst h
        exact ⟨by decide, by decide, by decide, by decide, by decide⟩
  unfold inlineMarkdownToHtml
  rw [if_neg hne]
  dsimp only
  rw [linkDoc_data]
  rw [escapeHtml_id _ (fun c hc =>
    ⟨(hall c hc).1, (hall c hc).2.1, (hall c hc).2.2.1⟩)]
  rw [replaceSpan_id '`' [] _ _ _ _ (fun c hc => (hall c hc).2.2.2.1)]
  rw [replaceSpan_id '*' ['*'] _ _ _ _ (fun c hc => (hall c hc).2.2.2.2)]
  rw [replaceSpan_id '*' [] _ _ _ _ (fun c hc => (hall c hc).2.2.2.2)]
  rw [scanLinks_link _ t.data u.data ht
    (fun c hc => (htc c hc).1) hu (fun c hc => (huc c hc).1)]
  apply String.ext
  simp only [strData_append, List.append_assoc]

/-- Claim C6, counterexample: the claim asserts that BOTH output
representations reduce a `[text](url)` link to its visible text only; the
HTML layer instead keeps the destination as an anchor (`href`), so its
output is not the visible text and still contains the URL, while the DOCX
run layer does drop it. -/
theorem inlineMarkdown_link_counterexample :
    inlineMarkdownToHtml "[text](url)" ≠ "text"
  ∧ containsSub "url".data (inlineMarkdownToHtml "[text](url)").data = true
  ∧ parseInlineMarkdown "[text](url)" = [MdRun.plain "text"] := by
  have h2 : inlineMarkdownToHtml "[text](url)" = "<a href=\"url\">text</a>" := by
    simp [inlineMarkdownToHtml, escapeHtml, escapeHtmlChar, replaceSpan,
      scanLinks, List.takeWhile, List.isPrefixOf]
  have h1 : parseInlineMarkdown "[text](url)" = [MdRun.plain "text"] := by
    simp [parseInlineMarkdown, tokenizeInline, runsOfSegment, scanLinks,
      List.takeWhile, List.isPrefixOf]
  exact ⟨by rw [h2]; decide, by rw [h2]; decide, h1⟩

/-- Claim C6 (amended): for a well-formed link `[text](url)` (text non-empty
without `]` or markup/escape characters, url non-empty without `)` or
markup/escape characters), the DOCX run layer `parseInlineMarkdown` degrades
the link to a single plain run of its visible text, dropping the
destination, while the HTML layer `inlineMarkdownToHtml` preserves the
destination as the `href` of an anchor around the visible text — so the two
representations agree on the visible text but not on the destination. -/
theorem inlineMarkdown_link_amended (t u : String)
    (ht : t.data ≠ [])
    (htc : ∀ c ∈ t.data,
      c ≠ ']' ∧ c ≠ '`' ∧ c ≠ '*' ∧ c ≠ '&' ∧ c ≠ '<' ∧ c ≠ '>')
    (hu : u.data ≠ [])
    (huc : ∀ c ∈ u.data,
      c ≠ ')' ∧ c ≠ '`' ∧ c ≠ '*' ∧ c ≠ '&' ∧ c ≠ '<' ∧ c ≠ '>') :
    parseInlineMarkdown ("[" ++ t ++ "](" ++ u ++ ")") = [MdRun.plain t]
  ∧ inlineMarkdownToHtml ("[" ++ t ++ "](" ++ u ++ ")")
      = "<a href=\"" ++ u ++ "\">" ++ t ++ "</a>" :=
  ⟨linkRuns t u ht htc hu huc, linkHtml t u ht htc hu huc⟩

/-- Claim C6, witness: the amended theorem at `text`/`url`. -/
theorem inlineMarkdown_link_amended_witness :
    parseInlineMarkdown ("[" ++ "text" ++ "](" ++ "url" ++ ")")
      = [MdRun.plain "text"]
  ∧ inlineMarkdownToHtml ("[" ++ "text" ++ "](" ++ "url" ++ ")")
      = "<a href=\"" ++ "url" ++ "\">" ++ "text" ++ "</a>" :=
  inlineMarkdown_link_amended "text" "url" (by decide) (by decide)
    (by decide) (by decide)

/-! ## Round-trip infrastructure and claim C2 -/

theorem isPrefixOf_append_self (l m : List Char) :
    l.isPrefixOf (l ++ m) = true :=
  List.isPrefixOf_iff_prefix.mpr (List.prefix_append l m)

theorem matchKeyLine_std (key v : String) (hfix : jsTrim v = v)
    (hne : v.data ≠ []) :
    matchKeyLine key (key ++ " " ++ v) = some ⟨v.data⟩ := by
  have hdata : (key ++ " " ++ v).data = key.data ++ (' ' :: v.data) := by
    have h1 : (key ++ " " ++ v).data = (key.data ++ " ".data) ++ v.data := rfl
    rw [h1, List.append_assoc]
    rfl
  unfold matchKeyLine
  rw [hdata]
  rw [if_pos ⟨isPrefixOf_append_self _ _, by
    simp only [List.length_append, List.length_cons]
    omega⟩]
  rw [List.drop_left]
  rw [show (' ' :: v.data) = [' '] ++ v.data from rfl]
  rw [jsCapture_ws_core [' '] v (by intro c hc; simp at hc; subst hc; decide) hfix hne]

theorem matchKeyLine_none_head (key line : String) (k0 c : Char)
    (hk : key.data.head? = some k0) (hl : line.data.head? = some c)
    (hne : k0 ≠ c) : matchKeyLine key line = none := by
  unfold matchKeyLine
  rw [if_neg]
  rintro ⟨hp, -⟩
  cases hkd : key.data with
  | nil => simp [hkd] at hk
  | cons a as =>
    cases hld : line.data with
    | nil => simp [hld] at hl
    | cons b bs =>
      rw [hkd] at hk
      rw [hld] at hl
      simp only [List.head?_cons, Option.some.injEq] at hk hl
      rw [hkd, hld] at hp
      simp only [List.isPrefixOf, Bool.and_eq_true, beq_iff_eq] at hp
      exact hne (hk ▸ hl ▸ hp.1)

theorem matchKeyLine_none_empty (key : String) : matchKeyLine key "" = none := by
  unfold matchKeyLine
  rw [if_neg]
  rintro ⟨-, h⟩
  simp at h

theorem matchTitleLine_std (v : String) (hfix : jsTrim v = v)
    (hne : v.data ≠ []) :
    matchTitleLine ("# Issue title: " ++ v) = some ⟨v.data⟩ := by
  have htw : (' ' :: ("Issue title:".data ++ (' ' :: v.data))).takeWhile isWsChar
      = [' '] := by
    rw [show ("Issue title:".data ++ (' ' :: v.data))
        = 'I' :: ("ssue title:".data ++ (' ' :: v.data)) from rfl]
    rw [List.takeWhile_cons_of_pos (by decide), List.takeWhile_cons_of_neg (by decide)]
  have hdw : (' ' :: ("Issue title:".data ++ (' ' :: v.data))).dropWhile isWsChar
      = "Issue title:".data ++ (' ' :: v.data) := by
    rw [show ("Issue title:".data ++ (' ' :: v.data))
        = 'I' :: ("ssue title:".data ++ (' ' :: v.data)) from rfl]
    rw [List.dropWhile_cons_of_pos (by decide), List.dropWhile_cons_of_neg (by decide)]
  have hstep : matchTitleLine ("# Issue title: " ++ v)
      = (if ((' ' :: ("Issue title:".data ++ (' ' :: v.data))).takeWhile isWsChar).isEmpty
          then none
         else if "Issue title:".data.isPrefixOf
              ((' ' :: ("Issue title:".data ++ (' ' :: v.data))).dropWhile isWsChar)
            ∧ "Issue title:".data.length <
              ((' ' :: ("Issue title:".data ++ (' ' :: v.data))).dropWhile isWsChar).length
          then some ⟨jsCapture
            (((' ' :: ("Issue title:".data ++ (' ' :: v.data))).dropWhile
              isWsChar).drop "Issue title:".data.length)⟩
         else none) := rfl
  rw [hstep, htw, hdw]
  rw [if_neg (by simp)]
  rw [if_pos ⟨isPrefixOf_append_self _ _, by
    simp only [List.length_append, List.length_cons]
    omega⟩]
  rw [List.drop_left]
  rw [show (' ' :: v.data) = [' '] ++ v.data from rfl]
  rw [jsCapture_ws_core [' '] v (by intro c hc; simp at hc; subst hc; decide) hfix hne]

theorem matchTitleLine_none_head (line : String) (c : Char)
    (hl : line.data.head? = some c) (hc : c ≠ '#') :
    matchTitleLine line = none := by
  unfold matchTitleLine
  cases hld : line.data with
  | nil => rfl
  | cons b bs =>
    rw [hld] at hl
    simp only [List.head?_cons, Option.some.injEq] at hl
    subst hl
    simp [hc]


/-! ## Round-trip infrastructure (claim C2) -/

theorem flatten_intersperse_head (sep : List Char) (c : Char) (m : List Char)
    (ms : List (List Char)) :
    (List.intersperse sep ((c :: m) :: ms)).flatten
      = c :: (List.intersperse sep (m :: ms)).flatten := by
  cases ms with
  | nil => rfl
  | cons m1 ms1 => simp [List.intersperse_cons_cons]

theorem flatten_intersperse_splitCh (l : List Char) :
    (List.intersperse ['\n'] (splitCh '\n' l)).flatten = l := by
  induction l with
  | nil => simp [splitCh, List.intersperse]
  | cons c cs ih =>
    by_cases hc : c = '\n'
    · subst hc
      simp only [splitCh, if_pos rfl]
      cases h : splitCh '\n' cs with
      | nil => exact absurd h (splitCh_ne_nil _ _)
      | cons m ms =>
        rw [h] at ih
        simp [List.intersperse_cons_cons, ih]
    · simp only [splitCh, if_neg hc]
      cases h : splitCh '\n' cs with
      | nil => exact absurd h (splitCh_ne_nil _ _)
      | cons m ms =>
        rw [h] at ih
        rw [flatten_intersperse_head, ih]

theorem joinNL_splitNL (s : String) : joinNL (splitNL s) = s := by
  apply String.ext
  show ((((splitCh '\n' s.data).map fun cs => (⟨cs⟩ : String)).map
    String.data).intersperse ['\n']).flatten = s.data
  rw [List.map_map]
  have : (String.data ∘ fun cs => (⟨cs⟩ : String)) = id := by
    funext x
    rfl
  rw [this, List.map_id]
  exact flatten_intersperse_splitCh s.data

theorem splitCh_chunk_no_sep (sep : Char) (l : List Char) :
    ∀ m ∈ splitCh sep l, ∀ c ∈ m, c ≠ sep := by
  induction l with
  | nil =>
    intro m hm
    simp [splitCh] at hm
    subst hm
    simp
  | cons x xs ih =>
    intro m hm c hc
    by_cases hx : x = sep
    · rw [splitCh, if_pos hx] at hm
      rcases List.mem_cons.mp hm with rfl | hm
      · simp at hc
      · exact ih m hm c hc
    · rw [splitCh, if_neg hx] at hm
      cases h : splitCh sep xs with
      | nil => exact absurd h (splitCh_ne_nil _ _)
      | cons m0 ms =>
        rw [h] at hm
        rcases List.mem_cons.mp hm with rfl | hm
        · rcases List.mem_cons.mp hc with rfl | hc
          · exact hx
          · exact ih m0 (by simp [h]) c hc
        · exact ih m (by simp [h, hm]) c hc

theorem splitNL_line_no_newline (s : String) :
    ∀ l ∈ splitNL s, ∀ c ∈ l.data, c ≠ '\n' := by
  intro l hl c hc
  obtain ⟨m, hm, rfl⟩ := List.mem_map.mp hl
  exact splitCh_chunk_no_sep '\n' s.data m hm c hc

theorem flatMap_splitNL_single (L : List String)
    (h : ∀ l ∈ L, ∀ c ∈ l.data, c ≠ '\n') :
    L.flatMap splitNL = L := by
  induction L with
  | nil => rfl
  | cons x xs ih =>
    rw [List.flatMap_cons, splitNL_single x (h x (by simp)),
      ih fun l hl => h l (by simp [hl])]
    rfl

theorem head?_append_left (l m : List Char) (hl : l ≠ []) :
    (l ++ m).head? = l.head? := by
  cases l with
  | nil => exact absurd rfl hl
  | cons c cs => rfl

theorem getLast?_append_right (l m : List Char) (hm : m ≠ []) :
    (l ++ m).getLast? = m.getLast? :=
  List.getLast?_append_of_ne_nil l hm

theorem trimFix_intro (s : String)
    (hh : ∀ c, s.data.head? = some c → isWsChar c = false)
    (hl : ∀ c, s.data.getLast? = some c → isWsChar c = false) :
    jsTrim s = s := by
  apply String.ext
  show dropTrail isWsChar (s.data.dropWhile isWsChar) = s.data
  rw [dropWhile_eq_self_of_head isWsChar s.data hh]
  unfold dropTrail
  rw [dropWhile_eq_self_of_head isWsChar s.data.reverse
    (fun c hc => hl c (by rwa [List.head?_reverse] at hc))]
  exact List.reverse_reverse _
theorem orDefault_of_ne (s d : String) (h : s.data ≠ []) : orDefault s d = s := by
  unfold orDefault
  rw [if_neg]
  intro he
  exact h (congrArg String.data he)

theorem matchKeyLine_none_of_lit (key lit v : String)
    (hlen : key.data.length ≤ lit.data.length)
    (hpre : key.data.isPrefixOf lit.data = false) :
    matchKeyLine key (lit ++ v) = none := by
  unfold matchKeyLine
  rw [if_neg]
  rintro ⟨hp, -⟩
  rw [strData_append] at hp
  have h1 : key.data <+: lit.data ++ v.data := List.isPrefixOf_iff_prefix.mp hp
  have h2 : key.data = (lit.data ++ v.data).take key.data.length :=
    List.prefix_iff_eq_take.mp h1
  rw [List.take_append_of_le_length hlen] at h2
  have h3 : key.data <+: lit.data := h2 ▸ List.take_prefix _ _
  rw [List.isPrefixOf_iff_prefix.mpr h3] at hpre
  exact Bool.true_eq_false.mp hpre

theorem headingKey_none_of_head (line : String) (c : Char)
    (h : line.data.head? = some c) (hc : c ≠ '#') : headingKey line = none := by
  unfold headingKey
  cases hl : line.data with
  | nil => simp [hl] at h
  | cons b bs =>
    rw [hl] at h
    simp only [List.head?_cons, Option.some.injEq] at h
    subst h
    rw [List.takeWhile_cons_of_neg (by simp [hc])]
    simp

theorem headingKey_none_hash1 (rest : List Char) (c : Char)
    (h : rest.head? = some c) (hc : c ≠ '#') : headingKey ⟨'#' :: rest⟩ = none := by
  unfold headingKey
  cases hr : rest with
  | nil => simp [hr] at h
  | cons b bs =>
    rw [hr] at h
    simp only [List.head?_cons, Option.some.injEq] at h
    subst h
    show (let hashes := ('#' :: b :: bs).takeWhile (fun c => c = '#'); _) = none
    rw [List.takeWhile_cons_of_pos (by simp), List.takeWhile_cons_of_neg (by simp [hc])]
    simp

theorem isSubheadingStart_false_of_head (line : String) (c : Char)
    (h : line.data.head? = some c) (hc : c ≠ '#') :
    isSubheadingStart line = false := by
  unfold isSubheadingStart
  cases hl : line.data with
  | nil => rfl
  | cons b bs =>
    rw [hl] at h
    simp only [List.head?_cons, Option.some.injEq] at h
    subst h
    simp [List.isPrefixOf, Ne.symm hc]

theorem evidenceInLine_none (l : List Char)
    (h : containsSub "Evidence:".data l = false) : evidenceInLine l = none := by
  induction l with
  | nil => rfl
  | cons c cs ih =>
    rw [containsSub, Bool.or_eq_false_iff] at h
    rw [evidenceInLine, if_neg]
    · exact ih h.2
    · rintro ⟨hp, -⟩
      simp [h.1] at hp

theorem evidenceInLine_std (v : String) (hfix : jsTrim v = v)
    (hne : v.data ≠ []) :
    evidenceInLine ("Evidence: " ++ v).data = some ⟨v.data⟩ := by
  have hd : ("Evidence: " ++ v).data
      = 'E' :: ("vidence: ".data ++ v.data) := rfl
  rw [hd, evidenceInLine]
  rw [show ('E' :: ("vidence: ".data ++ v.data))
      = "Evidence:".data ++ (' ' :: v.data) from rfl]
  rw [if_pos ⟨isPrefixOf_append_self _ _, by
    simp only [List.length_append, List.length_cons]
    omega⟩]
  rw [List.drop_left]
  rw [show (' ' :: v.data) = [' '] ++ v.data from rfl]
  rw [jsCapture_ws_core [' '] v (by intro c hc; simp at hc; subst hc; decide) hfix hne]

theorem ttick_prefix_ext (a : Char) (as X : List Char)
    (hX : X.head? = some '\n')
    (h : "```".data.isPrefixOf (a :: as) = false) :
    "```".data.isPrefixOf (a :: (as ++ X)) = false := by
  cases X with
  | nil => simp at hX
  | cons x xs =>
    simp only [List.head?_cons, Option.some.injEq] at hX
    subst hX
    match as with
    | [] => simp [List.isPrefixOf]
    | [b] => simp [List.isPrefixOf]
    | b :: c :: rest =>
      simp only [List.isPrefixOf, List.cons_append] at h ⊢
      simpa using h

theorem findTripleTick_marker (l m : List Char)
    (h : containsSub "```".data l = false) :
    findTripleTick (l ++ '\n' :: ('`' :: '`' :: '`' :: m))
      = some (l ++ ['\n'], m) := by
  induction l with
  | nil =>
    rw [List.nil_append, findTripleTick]
    rw [if_neg (by simp [show ("```".data.isPrefixOf
      ('\n' :: ('`' :: '`' :: '`' :: m))) = false from rfl])]
    rw [findTripleTick]
    rw [if_pos (by
      rw [show ('`' :: '`' :: '`' :: m) = "```".data ++ m from rfl]
      exact isPrefixOf_append_self _ _)]
    rfl
  | cons a as ih =>
    rw [containsSub, Bool.or_eq_false_iff] at h
    rw [List.cons_append, findTripleTick]
    rw [if_neg (by simp [ttick_prefix_ext a as ('\n' :: ('`' :: '`' :: '`' :: m)) rfl h.1])]
    rw [ih h.2]
    simp

theorem matchCodeFenceAt_nl (cs : List Char) :
    matchCodeFenceAt ('\n' :: cs) = none := by
  unfold matchCodeFenceAt
  rw [if_neg (by simp [show ("```".data.isPrefixOf ('\n' :: cs)) = false from rfl])]

theorem findCodeBlock_std (lang code : String)
    (hlang : ∀ c ∈ lang.data, isWordChar c = true)
    (hcode : containsSub "```".data code.data = false) :
    findCodeBlock ('\n' :: ('`' :: '`' :: '`' ::
        (lang.data ++ ('\n' :: (code.data ++ ('\n' :: ('`' :: '`' :: '`' :: ['\n'])))))))
      = some (lang, ⟨code.data ++ ['\n']⟩) := by
  have hfence : matchCodeFenceAt ('`' :: '`' :: '`' ::
      (lang.data ++ ('\n' :: (code.data ++ ('\n' :: ('`' :: '`' :: '`' :: ['\n']))))))
      = some (lang, ⟨code.data ++ ['\n']⟩) := by
    unfold matchCodeFenceAt
    rw [if_pos (by
      rw [show ('`' :: '`' :: '`' ::
        (lang.data ++ ('\n' :: (code.data ++ ('\n' :: ('`' :: '`' :: '`' :: ['\n']))))))
        = "```".data ++ (lang.data ++ ('\n' :: (code.data ++ ('\n' :: ('`' :: '`' :: '`' :: ['\n']))))) from rfl]
      exact isPrefixOf_append_self _ _)]
    dsimp only
    rw [show (List.drop 3 ('`' :: '`' :: '`' ::
        (lang.data ++ '\n' :: (code.data ++ ['\n', '`', '`', '`', '\n']))))
      = lang.data ++ '\n' :: (code.data ++ ['\n', '`', '`', '`', '\n']) from rfl]
    rw [takeWhile_all_head isWordChar lang.data _ hlang (by
      intro c hc
      simp only [List.head?_cons, Option.some.injEq] at hc
      subst hc
      decide)]
    rw [List.drop_left]
    show (match findTripleTick (code.data ++ ['\n', '`', '`', '`', '\n']) with
          | some (pre, _) => some ((⟨lang.data⟩ : String), (⟨pre⟩ : String))
          | none => none)
        = some (lang, ⟨code.data ++ ['\n']⟩)
    rw [findTripleTick_marker code.data ['\n'] hcode]
  rw [findCodeBlock, matchCodeFenceAt_nl]
  show findCodeBlock ('`' :: '`' :: '`' ::
      (lang.data ++ ('\n' :: (code.data ++ ('\n' :: ('`' :: '`' :: '`' :: ['\n']))))))
    = some (lang, ⟨code.data ++ ['\n']⟩)
  rw [findCodeBlock]
  rw [hfence]

theorem splitSectionsGo_none_skip (pre ls : List String)
    (h : ∀ l ∈ pre, headingKey l = none) :
    splitSectionsGo none (pre ++ ls) = splitSectionsGo none ls := by
  induction pre with
  | nil => rfl
  | cons x xs ih =>
    have hstep : splitSectionsGo none (x :: (xs ++ ls))
        = (match headingKey x with
           | some k => closeSection none ++ splitSectionsGo (some (k, [])) (xs ++ ls)
           | none => splitSectionsGo none (xs ++ ls)) := rfl
    rw [List.cons_append, hstep, h x (by simp)]
    exact ih fun l hl => h l (by simp [hl])

theorem splitSectionsGo_acc (k : String) (acc pre ls : List String)
    (h : ∀ l ∈ pre, headingKey l = none) :
    splitSectionsGo (some (k, acc)) (pre ++ ls)
      = splitSectionsGo (some (k, acc ++ pre)) ls := by
  induction pre generalizing acc with
  | nil => simp
  | cons x xs ih =>
    have hstep : splitSectionsGo (some (k, acc)) (x :: (xs ++ ls))
        = (match headingKey x with
           | some k2 => closeSection (some (k, acc)) ++ splitSectionsGo (some (k2, [])) (xs ++ ls)
           | none => splitSectionsGo (some (k, acc ++ [x])) (xs ++ ls)) := rfl
    rw [List.cons_append, hstep, h x (by simp)]
    rw [ih (acc ++ [x]) fun l hl => h l (by simp [hl])]
    simp

theorem splitSectionsGo_heading (cur : Option (String × List String)) (l : String)
    (ls : List String) (k : String) (h : headingKey l = some k) :
    splitSectionsGo cur (l :: ls)
      = closeSection cur ++ splitSectionsGo (some (k, [])) ls := by
  have hstep : splitSectionsGo cur (l :: ls)
      = (match headingKey l with
         | some k2 => closeSection cur ++ splitSectionsGo (some (k2, [])) ls
         | none =>
           match cur with
           | none => splitSectionsGo none ls
           | some (k2, acc) => splitSectionsGo (some (k2, acc ++ [l])) ls) := rfl
  rw [hstep, h]

theorem splitSectionsGo_nil_acc (k : String) (acc : List String) :
    splitSectionsGo (some (k, acc)) [] = [(k, joinNL acc)] := rfl

theorem joinNL_append (xs ys : List String) (hx : xs ≠ []) (hy : ys ≠ []) :
    joinNL (xs ++ ys) = ⟨(joinNL xs).data ++ '\n' :: (joinNL ys).data⟩ := by
  induction xs with
  | nil => exact absurd rfl hx
  | cons x xs ih =>
    cases xs with
    | nil =>
      cases ys with
      | nil => exact absurd rfl hy
      | cons y ys' =>
        rw [List.singleton_append, joinNL_cons]
        rw [joinNL_single]
    | cons x2 xs2 =>
      rw [List.cons_append, List.cons_append, joinNL_cons, joinNL_cons]
      rw [← List.cons_append, ih (by simp)]
      simp

theorem splitNL_ne_nil (s : String) : splitNL s ≠ [] := by
  unfold splitNL
  intro h
  exact splitCh_ne_nil '\n' s.data (List.map_eq_nil_iff.mp h)

theorem getSection_cons_ne (a : String × String) (ps : List (String × String))
    (k : String) (h : ¬ a.1 = k) : getSection (a :: ps) k = getSection ps k := by
  simp [getSection, List.filter_cons, h]

theorem getSection_cons_eq_rest_ne (a : String × String)
    (ps : List (String × String)) (k : String) (h1 : a.1 = k)
    (h2 : ∀ p ∈ ps, ¬ p.1 = k) : getSection (a :: ps) k = some a.2 := by
  have hnil : List.filter (fun p => p.1 = k) ps = [] :=
    List.filter_eq_nil_iff.mpr (by intro p hp; simpa using h2 p hp)
  simp [getSection, List.filter_cons, h1, hnil]

theorem noNL_append (a b : String) (ha : ∀ c ∈ a.data, c ≠ '\n')
    (hb : ∀ c ∈ b.data, c ≠ '\n') : ∀ c ∈ (a ++ b).data, c ≠ '\n' := by
  intro c hc
  rw [strData_append] at hc
  rcases List.mem_append.mp hc with h | h
  exacts [ha c h, hb c h]

theorem mkExtraRow_std (r : ExtraRow) (h : extraRowOk r) :
    mkExtraRow (r.title ++ " | " ++ r.severity) = r := by
  obtain ⟨⟨ht_ne, ht_fix, -⟩, ⟨hs_ne, hs_fix, -⟩, ht_pipe, hs_pipe⟩ := h
  have hdata : (r.title ++ " | " ++ r.severity).data
      = (r.title.data ++ [' ']) ++ '|' :: (' ' :: r.severity.data) := by
    simp [strData_append]
  have h1 : splitCh '|' (r.title ++ " | " ++ r.severity).data
      = [r.title.data ++ [' '], ' ' :: r.severity.data] := by
    rw [hdata, splitCh_append_sep]
    rw [splitCh_eq_single '|' (r.title.data ++ [' ']) (by
      intro c hc
      rcases List.mem_append.mp hc with hm | hm
      · exact ht_pipe c hm
      · simp at hm; subst hm; decide)]
    rw [splitCh_eq_single '|' (' ' :: r.severity.data) (by
      intro c hc
      rcases List.mem_cons.mp hc with rfl | hm
      · decide
      · exact hs_pipe c hm)]
    rfl
  have htitle : jsTrim ⟨r.title.data ++ [' ']⟩ = r.title := by
    have hs := jsTrim_sandwich [] [' '] r.title (by intro c hc; simp at hc)
      (by intro c hc; simp at hc; subst hc; decide) ht_fix
    simpa using hs
  have hsev : jsTrim ⟨' ' :: r.severity.data⟩ = r.severity := by
    have hs := jsTrim_sandwich [' '] [] r.severity
      (by intro c hc; simp at hc; subst hc; decide) (by intro c hc; simp at hc) hs_fix
    simpa using hs
  unfold mkExtraRow
  rw [h1]
  show ExtraRow.mk (jsTrim ⟨r.title.data ++ [' ']⟩)
      (jsTrim (if (' ' :: r.severity.data).isEmpty then "Medium"
               else ⟨' ' :: r.severity.data⟩)) = r
  rw [if_neg (by simp), htitle, hsev]

theorem eLine_head (r : ExtraRow) :
    ("Additional Issue: " ++ orDefault r.title "" ++ " | "
      ++ orDefault r.severity "Medium").data.head? = some 'A' := rfl

theorem filterMap_extras (rs : List ExtraRow) (h : ∀ r ∈ rs, extraRowOk r) :
    ((rs.map fun r => "Additional Issue: " ++ orDefault r.title "" ++ " | "
        ++ orDefault r.severity "Medium").filterMap
      (matchKeyLine "Additional Issue:")).map mkExtraRow = rs := by
  induction rs with
  | nil => rfl
  | cons r rest ih =>
    obtain ⟨⟨ht_ne, ht_fix, ht_nl⟩, ⟨hs_ne, hs_fix, hs_nl⟩, ht_pipe, hs_pipe⟩ :=
      h r (by simp)
    have hw_fix : jsTrim (r.title ++ " | " ++ r.severity)
        = r.title ++ " | " ++ r.severity := by
      apply trimFix_intro
      · intro c hc
        rw [strData_append, strData_append,
          head?_append_left _ _ (by simp [ht_ne]),
          head?_append_left _ _ ht_ne] at hc
        exact trimFix_head r.title ht_fix c hc
      · intro c hc
        rw [strData_append,
          getLast?_append_right _ _ hs_ne] at hc
        exact trimFix_last r.severity hs_fix c hc
    have hw_ne : (r.title ++ " | " ++ r.severity).data ≠ [] := by
      rw [strData_append, strData_append]
      simp [ht_ne]
    rw [List.map_cons, orDefault_of_ne r.title "" ht_ne,
      orDefault_of_ne r.severity "Medium" hs_ne]
    rw [List.filterMap_cons_some (by
      rw [show ("Additional Issue: " ++ r.title ++ " | " ++ r.severity)
          = "Additional Issue:" ++ " " ++ (r.title ++ " | " ++ r.severity) from by
        apply String.ext
        simp [strData_append]]
      exact matchKeyLine_std "Additional Issue:" (r.title ++ " | " ++ r.severity)
        hw_fix hw_ne)]
    rw [List.map_cons]
    rw [show ((⟨(r.title ++ " | " ++ r.severity).data⟩ : String)
        = r.title ++ " | " ++ r.severity) from rfl]
    rw [mkExtraRow_std r (h r (by simp)), ih fun q hq => h q (by simp [hq])]

theorem joinNL_pad (f : String) :
    joinNL ([""] ++ splitNL f ++ [""]) = ⟨'\n' :: (f.data ++ ['\n'])⟩ := by
  rw [List.append_assoc,
    joinNL_append [""] (splitNL f ++ [""]) (by simp) (by simp),
    joinNL_append (splitNL f) [""] (splitNL_ne_nil f) (by simp),
    joinNL_splitNL, joinNL_single]
  apply String.ext
  simp [joinNL]

theorem joinNL_pad3 (f e : String) :
    joinNL ([""] ++ splitNL f ++ ["", e, ""])
      = ⟨'\n' :: (f.data ++ ('\n' :: '\n' :: (e.data ++ ['\n'])))⟩ := by
  rw [List.append_assoc,
    joinNL_append [""] (splitNL f ++ ["", e, ""]) (by simp) (by simp),
    joinNL_append (splitNL f) ["", e, ""] (splitNL_ne_nil f) (by simp),
    joinNL_splitNL, joinNL_single,
    joinNL_cons, joinNL_cons, joinNL_single]
  apply String.ext
  simp

theorem joinNL_code (lang code : String) :
    joinNL (["", "```" ++ lang] ++ splitNL code ++ ["```", ""])
      = ⟨'\n' :: ('`' :: '`' :: '`' :: (lang.data ++ ('\n' :: (code.data
          ++ ('\n' :: ('`' :: '`' :: '`' :: ['\n']))))))⟩ := by
  rw [List.append_assoc,
    joinNL_append ["", "```" ++ lang] (splitNL code ++ ["```", ""])
      (by simp) (by simp),
    joinNL_append (splitNL code) ["```", ""] (splitNL_ne_nil code) (by simp),
    joinNL_splitNL, joinNL_cons, joinNL_single, joinNL_cons, joinNL_single]
  apply String.ext
  simp [strData_append]

theorem takeWhile_all_gen {α : Type} (p : α → Bool) (l : List α)
    (h : ∀ a ∈ l, p a = true) : l.takeWhile p = l := by
  induction l with
  | nil => rfl
  | cons x xs ih =>
    rw [List.takeWhile_cons_of_pos (h x (by simp))]
    rw [ih fun a ha => h a (by simp [ha])]

theorem splitSectionsGo_none_cons (l : String) (ls : List String)
    (h : headingKey l = none) :
    splitSectionsGo none (l :: ls) = splitSectionsGo none ls := by
  have hstep := splitSectionsGo_none_skip [l] ls
    (by intro x hx; simp at hx; subst hx; exact h)
  simpa using hstep

theorem splitSectionsGo_acc_cons (k : String) (acc : List String) (l : String)
    (ls : List String) (h : headingKey l = none) :
    splitSectionsGo (some (k, acc)) (l :: ls)
      = splitSectionsGo (some (k, acc ++ [l])) ls := by
  have hstep := splitSectionsGo_acc k acc [l] ls
    (by intro x hx; simp at hx; subst hx; exact h)
  simpa using hstep

theorem closeSection_none : closeSection none = [] := rfl

theorem closeSection_some (k : String) (acc : List String) :
    closeSection (some (k, acc)) = [(k, joinNL acc)] := rfl

/-- Claim C2, amended: for every template-compatible issue record (fields
non-empty, trimmed and free of marker collisions, per `wfIssue`),
re-parsing the serialized markdown restores every field exactly — title,
the seven metadata fields, impactDetails, evidence, codeExample,
codeLanguage, exampleScenario, recommendation and the extraRows list in
order — except `description`, which comes back with the serialized
`Evidence:` line appended. -/
theorem roundTrip_amended (i : Issue) (h : wfIssue i) :
    parseIssue (issueToMarkdown i)
      = { i.toIssueRec with
          description := i.description ++ "\n\nEvidence: " ++ i.evidence } := by
  obtain ⟨⟨ht_ne, ht_fix, ht_nl⟩, ⟨hor_ne, hor_fix, hor_nl⟩, ⟨him_ne, him_fix, him_nl⟩,
    ⟨hex_ne, hex_fix, hex_nl⟩, ⟨hfi_ne, hfi_fix, hfi_nl⟩, ⟨hco_ne, hco_fix, hco_nl⟩,
    ⟨hca_ne, hca_fix, hca_nl⟩, ⟨hst_ne, hst_fix, hst_nl⟩, ⟨hid_ne, hid_fix, hid_pl⟩,
    ⟨hde_ne, hde_fix, hde_pl⟩, ⟨hev_ne, hev_fix, hev_nl⟩, ⟨⟨hce_ne, hce_fix, hce_pl⟩, hce_nf⟩,
    ⟨hcl_ne, hcl_w⟩, ⟨hsc_ne, hsc_fix, hsc_pl⟩, ⟨hre_ne, hre_fix, hre_pl⟩, hrows⟩ := h
  have hmd : issueToMarkdownEntries i =
      ("# Issue title: " ++ i.title) :: "" :: ("Overall Risk: " ++ i.overallRisk) ::
      (i.extraRows.map (fun r => "Additional Issue: " ++ orDefault r.title "" ++ " | "
          ++ orDefault r.severity "Medium")
        ++ (("Impact: " ++ i.impact) :: ("Exploitability: " ++ i.exploitability) ::
            ("Finding ID: " ++ i.findingId) :: ("Component: " ++ i.component) ::
            ("Category: " ++ i.category) :: ("Status: " ++ i.status) :: "" ::
            "## Impact details" :: "" :: i.impactDetails :: "" ::
            "## Description" :: "" :: i.description :: "" ::
            ("Evidence: " ++ i.evidence) :: "" ::
            "### Code example" :: "" :: ("```" ++ i.codeLanguage) :: i.codeExample :: "```" :: "" ::
            "### Example issue scenario" :: "" :: i.exampleScenario :: "" ::
            "## Recommendation" :: "" :: i.recommendation :: [""])) := by
    unfold issueToMarkdownEntries
    rw [orDefault_of_ne i.title "Untitled" ht_ne,
      orDefault_of_ne i.overallRisk "Medium" hor_ne,
      orDefault_of_ne i.impact "Medium" him_ne,
      orDefault_of_ne i.exploitability "Medium" hex_ne,
      orDefault_of_ne i.findingId "ABC-XXXXXX" hfi_ne,
      orDefault_of_ne i.category "Uncategorized" hca_ne,
      orDefault_of_ne i.status "New" hst_ne]
    rw [if_pos (show i.evidence ≠ "" from fun he => hev_ne (congrArg String.data he))]
    rw [if_pos (show i.codeExample ≠ "" ∧ jsTrim i.codeExample ≠ "" from
      ⟨fun he => hce_ne (congrArg String.data he),
       fun he => hce_ne (congrArg String.data (hce_fix.symm.trans he))⟩)]
    simp
  have z0 : splitNL "" = [""] := rfl
  have zh1 : splitNL "## Impact details" = ["## Impact details"] := rfl
  have zh2 : splitNL "## Description" = ["## Description"] := rfl
  have zh3 : splitNL "### Code example" = ["### Code example"] := rfl
  have zh4 : splitNL "### Example issue scenario" = ["### Example issue scenario"] := rfl
  have zh5 : splitNL "## Recommendation" = ["## Recommendation"] := rfl
  have zh6 : splitNL "```" = ["```"] := rfl
  have z1 : splitNL ("# Issue title: " ++ i.title) = ["# Issue title: " ++ i.title] :=
    splitNL_single _ (noNL_append _ _ (by decide) ht_nl)
  have z2 : splitNL ("Overall Risk: " ++ i.overallRisk)
      = ["Overall Risk: " ++ i.overallRisk] :=
    splitNL_single _ (noNL_append _ _ (by decide) hor_nl)
  have z3 : splitNL ("Impact: " ++ i.impact) = ["Impact: " ++ i.impact] :=
    splitNL_single _ (noNL_append _ _ (by decide) him_nl)
  have z4 : splitNL ("Exploitability: " ++ i.exploitability)
      = ["Exploitability: " ++ i.exploitability] :=
    splitNL_single _ (noNL_append _ _ (by decide) hex_nl)
  have z5 : splitNL ("Finding ID: " ++ i.findingId) = ["Finding ID: " ++ i.findingId] :=
    splitNL_single _ (noNL_append _ _ (by decide) hfi_nl)
  have z6 : splitNL ("Component: " ++ i.component) = ["Component: " ++ i.component] :=
    splitNL_single _ (noNL_append _ _ (by decide) hco_nl)
  have z7 : splitNL ("Category: " ++ i.category) = ["Category: " ++ i.category] :=
    splitNL_single _ (noNL_append _ _ (by decide) hca_nl)
  have z8 : splitNL ("Status: " ++ i.status) = ["Status: " ++ i.status] :=
    splitNL_single _ (noNL_append _ _ (by decide) hst_nl)
  have z9 : splitNL ("Evidence: " ++ i.evidence) = ["Evidence: " ++ i.evidence] :=
    splitNL_single _ (noNL_append _ _ (by decide) hev_nl)
  have z10 : splitNL ("```" ++ i.codeLanguage) = ["```" ++ i.codeLanguage] :=
    splitNL_single _ (noNL_append _ _ (by decide) (by
      intro c hc hcn
      subst hcn
      exact absurd (hcl_w _ hc) (by decide)))
  have zmap : (i.extraRows.map (fun r => "Additional Issue: " ++ orDefault r.title ""
      ++ " | " ++ orDefault r.severity "Medium")).flatMap splitNL
      = i.extraRows.map (fun r => "Additional Issue: " ++ orDefault r.title ""
      ++ " | " ++ orDefault r.severity "Medium") := by
    apply flatMap_splitNL_single
    intro l hl
    obtain ⟨r, hr, rfl⟩ := List.mem_map.mp hl
    obtain ⟨⟨t_ne, t_fix, t_nl⟩, ⟨s_ne, s_fix, s_nl⟩, -, -⟩ := hrows r hr
    rw [orDefault_of_ne _ _ t_ne, orDefault_of_ne _ _ s_ne]
    exact noNL_append _ _ (noNL_append _ _ (noNL_append _ _ (by decide) t_nl) (by decide)) s_nl
  have hlines : splitNL (issueToMarkdown i) =
      ("# Issue title: " ++ i.title) :: "" :: ("Overall Risk: " ++ i.overallRisk) ::
      (i.extraRows.map (fun r => "Additional Issue: " ++ orDefault r.title "" ++ " | "
          ++ orDefault r.severity "Medium")
        ++ (("Impact: " ++ i.impact) :: ("Exploitability: " ++ i.exploitability) ::
            ("Finding ID: " ++ i.findingId) :: ("Component: " ++ i.component) ::
            ("Category: " ++ i.category) :: ("Status: " ++ i.status) :: "" ::
            "## Impact details" :: "" :: (splitNL i.impactDetails ++ ("" ::
            "## Description" :: "" :: (splitNL i.description ++ ("" ::
            ("Evidence: " ++ i.evidence) :: "" ::
            "### Code example" :: "" :: ("```" ++ i.codeLanguage) ::
              (splitNL i.codeExample ++ ("```" :: "" ::
            "### Example issue scenario" :: "" :: (splitNL i.exampleScenario ++ ("" ::
            "## Recommendation" :: "" :: (splitNL i.recommendation ++ [""]))))))))))) := by
    rw [issueToMarkdown, hmd, splitNL_joinNL _ (by simp)]
    simp only [List.flatMap_cons, List.flatMap_append, List.flatMap_nil]
    rw [z0, zh1, zh2, zh3, zh4, zh5, zh6, z1, z2, z3, z4, z5, z6, z7, z8, z9, z10, zmap]
    simp
  have htitle : (match firstSome matchTitleLine (splitNL (issueToMarkdown i)) with
      | some v => jsTrim v
      | none => "") = i.title := by
    rw [hlines, firstSome_cons_some _ _ _ _ (matchTitleLine_std i.title ht_fix ht_ne)]
    exact ht_fix
  have hOR : metaValue "Overall Risk:" (splitNL (issueToMarkdown i)) = i.overallRisk := by
    unfold metaValue
    rw [hlines,
      firstSome_cons_none _ _ _ (matchKeyLine_none_head "Overall Risk:" ("# Issue title: " ++ i.title) 'O' '#' rfl rfl (by decide)),
      firstSome_cons_none _ _ _ (matchKeyLine_none_empty _),
      firstSome_cons_some _ _ _ _ (by
        rw [show ("Overall Risk: " ++ i.overallRisk) = "Overall Risk:" ++ " " ++ i.overallRisk from rfl]
        exact matchKeyLine_std "Overall Risk:" i.overallRisk hor_fix hor_ne)]
    exact hor_fix
  have hIM : metaValue "Impact:" (splitNL (issueToMarkdown i)) = i.impact := by
    unfold metaValue
    rw [hlines,
      firstSome_cons_none _ _ _ (matchKeyLine_none_head "Impact:" ("# Issue title: " ++ i.title) 'I' '#' rfl rfl (by decide)),
      firstSome_cons_none _ _ _ (matchKeyLine_none_empty _),
      firstSome_cons_none _ _ _ (matchKeyLine_none_head "Impact:" ("Overall Risk: " ++ i.overallRisk) 'I' 'O' rfl rfl (by decide)),
      firstSome_append_none _ _ _ (by
        intro l hl
        obtain ⟨r, hr, rfl⟩ := List.mem_map.mp hl
        exact matchKeyLine_none_head "Impact:" _ 'I' 'A' rfl (eLine_head r) (by decide)),
      firstSome_cons_some _ _ _ _ (by
        rw [show ("Impact: " ++ i.impact) = "Impact:" ++ " " ++ i.impact from rfl]
        exact matchKeyLine_std "Impact:" i.impact him_fix him_ne)]
    exact him_fix
  have hEX : metaValue "Exploitability:" (splitNL (issueToMarkdown i)) = i.exploitability := by
    unfold metaValue
    rw [hlines,
      firstSome_cons_none _ _ _ (matchKeyLine_none_head "Exploitability:" ("# Issue title: " ++ i.title) 'E' '#' rfl rfl (by decide)),
      firstSome_cons_none _ _ _ (matchKeyLine_none_empty _),
      firstSome_cons_none _ _ _ (matchKeyLine_none_head "Exploitability:" ("Overall Risk: " ++ i.overallRisk) 'E' 'O' rfl rfl (by decide)),
      firstSome_append_none _ _ _ (by
        intro l hl
        obtain ⟨r, hr, rfl⟩ := List.mem_map.mp hl
        exact matchKeyLine_none_head "Exploitability:" _ 'E' 'A' rfl (eLine_head r) (by decide)),
      firstSome_cons_none _ _ _ (matchKeyLine_none_head "Exploitability:" ("Impact: " ++ i.impact) 'E' 'I' rfl rfl (by decide)),
      firstSome_cons_some _ _ _ _ (by
        rw [show ("Exploitability: " ++ i.exploitability) = "Exploitability:" ++ " " ++ i.exploitability from rfl]
        exact matchKeyLine_std "Exploitability:" i.exploitability hex_fix hex_ne)]
    exact hex_fix
  have hFI : metaValue "Finding ID:" (splitNL (issueToMarkdown i)) = i.findingId := by
    unfold metaValue
    rw [hlines,
      firstSome_cons_none _ _ _ (matchKeyLine_none_head "Finding ID:" ("# Issue title: " ++ i.title) 'F' '#' rfl rfl (by decide)),
      firstSome_cons_none _ _ _ (matchKeyLine_none_empty _),
      firstSome_cons_none _ _ _ (matchKeyLine_none_head "Finding ID:" ("Overall Risk: " ++ i.overallRisk) 'F' 'O' rfl rfl (by decide)),
      firstSome_append_none _ _ _ (by
        intro l hl
        obtain ⟨r, hr, rfl⟩ := List.mem_map.mp hl
        exact matchKeyLine_none_head "Finding ID:" _ 'F' 'A' rfl (eLine_head r) (by decide)),
      firstSome_cons_none _ _ _ (matchKeyLine_none_head "Finding ID:" ("Impact: " ++ i.impact) 'F' 'I' rfl rfl (by decide)),
      firstSome_cons_none _ _ _ (matchKeyLine_none_head "Finding ID:" ("Exploitability: " ++ i.exploitability) 'F' 'E' rfl rfl (by decide)),
      firstSome_cons_some _ _ _ _ (by
        rw [show ("Finding ID: " ++ i.findingId) = "Finding ID:" ++ " " ++ i.findingId from rfl]
        exact matchKeyLine_std "Finding ID:" i.findingId hfi_fix hfi_ne)]
    exact hfi_fix
  have hCO : metaValue "Component:" (splitNL (issueToMarkdown i)) = i.component := by
    unfold metaValue
    rw [hlines,
      firstSome_cons_none _ _ _ (matchKeyLine_none_head "Component:" ("# Issue title: " ++ i.title) 'C' '#' rfl rfl (by decide)),
      firstSome_cons_none _ _ _ (matchKeyLine_none_empty _),
      firstSome_cons_none _ _ _ (matchKeyLine_none_head "Component:" ("Overall Risk: " ++ i.overallRisk) 'C' 'O' rfl rfl (by decide)),
      firstSome_append_none _ _ _ (by
        intro l hl
        obtain ⟨r, hr, rfl⟩ := List.mem_map.mp hl
        exact matchKeyLine_none_head "Component:" _ 'C' 'A' rfl (eLine_head r) (by decide)),
      firstSome_cons_none _ _ _ (matchKeyLine_none_head "Component:" ("Impact: " ++ i.impact) 'C' 'I' rfl rfl (by decide)),
      firstSome_cons_none _ _ _ (matchKeyLine_none_head "Component:" ("Exploitability: " ++ i.exploitability) 'C' 'E' rfl rfl (by decide)),
      firstSome_cons_none _ _ _ (matchKeyLine_none_head "Component:" ("Finding ID: " ++ i.findingId) 'C' 'F' rfl rfl (by decide)),
      firstSome_cons_some _ _ _ _ (by
        rw [show ("Component: " ++ i.component) = "Component:" ++ " " ++ i.component from rfl]
        exact matchKeyLine_std "Component:" i.component hco_fix hco_ne)]
    exact hco_fix
  have hCA : metaValue "Category:" (splitNL (issueToMarkdown i)) = i.category := by
    unfold metaValue
    rw [hlines,
      firstSome_cons_none _ _ _ (matchKeyLine_none_head "Category:" ("# Issue title: " ++ i.title) 'C' '#' rfl rfl (by decide)),
      firstSome_cons_none _ _ _ (matchKeyLine_none_empty _),
      firstSome_cons_none _ _ _ (matchKeyLine_none_head "Category:" ("Overall Risk: " ++ i.overallRisk) 'C' 'O' rfl rfl (by decide)),
      firstSome_append_none _ _ _ (by
        intro l hl
        obtain ⟨r, hr, rfl⟩ := List.mem_map.mp hl
        exact matchKeyLine_none_head "Category:" _ 'C' 'A' rfl (eLine_head r) (by decide)),
      firstSome_cons_none _ _ _ (matchKeyLine_none_head "Category:" ("Impact: " ++ i.impact) 'C' 'I' rfl rfl (by decide)),
      firstSome_cons_none _ _ _ (matchKeyLine_none_head "Category:" ("Exploitability: " ++ i.exploitability) 'C' 'E' rfl rfl (by decide)),
      firstSome_cons_none _ _ _ (matchKeyLine_none_head "Category:" ("Finding ID: " ++ i.findingId) 'C' 'F' rfl rfl (by decide)),
      firstSome_cons_none _ _ _
        (matchKeyLine_none_of_lit "Category:" "Component: " i.component
          (by decide) (by decide)),
      firstSome_cons_some _ _ _ _ (by
        rw [show ("Category: " ++ i.category) = "Category:" ++ " " ++ i.category from rfl]
        exact matchKeyLine_std "Category:" i.category hca_fix hca_ne)]
    exact hca_fix
  have hST : metaValue "Status:" (splitNL (issueToMarkdown i)) = i.status := by
    unfold metaValue
    rw [hlines,
      firstSome_cons_none _ _ _ (matchKeyLine_none_head "Status:" ("# Issue title: " ++ i.title) 'S' '#' rfl rfl (by decide)),
      firstSome_cons_none _ _ _ (matchKeyLine_none_empty _),
      firstSome_cons_none _ _ _ (matchKeyLine_none_head "Status:" ("Overall Risk: " ++ i.overallRisk) 'S' 'O' rfl rfl (by decide)),
      firstSome_append_none _ _ _ (by
        intro l hl
        obtain ⟨r, hr, rfl⟩ := List.mem_map.mp hl
        exact matchKeyLine_none_head "Status:" _ 'S' 'A' rfl (eLine_head r) (by decide)),
      firstSome_cons_none _ _ _ (matchKeyLine_none_head "Status:" ("Impact: " ++ i.impact) 'S' 'I' rfl rfl (by decide)),
      firstSome_cons_none _ _ _ (matchKeyLine_none_head "Status:" ("Exploitability: " ++ i.exploitability) 'S' 'E' rfl rfl (by decide)),
      firstSome_cons_none _ _ _ (matchKeyLine_none_head "Status:" ("Finding ID: " ++ i.findingId) 'S' 'F' rfl rfl (by decide)),
      firstSome_cons_none _ _ _ (matchKeyLine_none_head "Status:" ("Component: " ++ i.component) 'S' 'C' rfl rfl (by decide)),
      firstSome_cons_none _ _ _ (matchKeyLine_none_head "Status:" ("Category: " ++ i.category) 'S' 'C' rfl rfl (by decide)),
      firstSome_cons_some _ _ _ _ (by
        rw [show ("Status: " ++ i.status) = "Status:" ++ " " ++ i.status from rfl]
        exact matchKeyLine_std "Status:" i.status hst_fix hst_ne)]
    exact hst_fix
  have hext : ((splitNL (issueToMarkdown i)).filterMap
      (matchKeyLine "Additional Issue:")).map mkExtraRow = i.extraRows := by
    rw [hlines,
      List.filterMap_cons_none (matchKeyLine_none_head "Additional Issue:" ("# Issue title: " ++ i.title) 'A' '#' rfl rfl (by decide)),
      List.filterMap_cons_none (matchKeyLine_none_empty _),
      List.filterMap_cons_none (matchKeyLine_none_head "Additional Issue:" ("Overall Risk: " ++ i.overallRisk) 'A' 'O' rfl rfl (by decide)),
      List.filterMap_append,
      List.filterMap_cons_none (matchKeyLine_none_head "Additional Issue:" ("Impact: " ++ i.impact) 'A' 'I' rfl rfl (by decide)),
      List.filterMap_cons_none (matchKeyLine_none_head "Additional Issue:" ("Exploitability: " ++ i.exploitability) 'A' 'E' rfl rfl (by decide)),
      List.filterMap_cons_none (matchKeyLine_none_head "Additional Issue:" ("Finding ID: " ++ i.findingId) 'A' 'F' rfl rfl (by decide)),
      List.filterMap_cons_none (matchKeyLine_none_head "Additional Issue:" ("Component: " ++ i.component) 'A' 'C' rfl rfl (by decide)),
      List.filterMap_cons_none (matchKeyLine_none_head "Additional Issue:" ("Category: " ++ i.category) 'A' 'C' rfl rfl (by decide)),
      List.filterMap_cons_none (matchKeyLine_none_head "Additional Issue:" ("Status: " ++ i.status) 'A' 'S' rfl rfl (by decide)),
      List.filterMap_cons_none (matchKeyLine_none_empty _),
      List.filterMap_cons_none (by decide),
      List.filterMap_cons_none (matchKeyLine_none_empty _),
      List.filterMap_append,
      show (splitNL i.impactDetails).filterMap (matchKeyLine "Additional Issue:") = []
        from List.filterMap_eq_nil_iff.mpr (fun l hl => (hid_pl l hl).2.2.1),
      List.nil_append,
      List.filterMap_cons_none (matchKeyLine_none_empty _),
      List.filterMap_cons_none (by decide),
      List.filterMap_cons_none (matchKeyLine_none_empty _),
      List.filterMap_append,
      show (splitNL i.description).filterMap (matchKeyLine "Additional Issue:") = []
        from List.filterMap_eq_nil_iff.mpr (fun l hl => (hde_pl l hl).2.2.1),
      List.nil_append,
      List.filterMap_cons_none (matchKeyLine_none_empty _),
      List.filterMap_cons_none (matchKeyLine_none_head "Additional Issue:" ("Evidence: " ++ i.evidence) 'A' 'E' rfl rfl (by decide)),
      List.filterMap_cons_none (matchKeyLine_none_empty _),
      List.filterMap_cons_none (by decide),
      List.filterMap_cons_none (matchKeyLine_none_empty _),
      List.filterMap_cons_none (matchKeyLine_none_head "Additional Issue:" ("```" ++ i.codeLanguage) 'A' '`' rfl rfl (by decide)),
      List.filterMap_append,
      show (splitNL i.codeExample).filterMap (matchKeyLine "Additional Issue:") = []
        from List.filterMap_eq_nil_iff.mpr (fun l hl => (hce_pl l hl).2.2.1),
      List.nil_append,
      List.filterMap_cons_none (by decide),
      List.filterMap_cons_none (matchKeyLine_none_empty _),
      List.filterMap_cons_none (by decide),
      List.filterMap_cons_none (matchKeyLine_none_empty _),
      List.filterMap_append,
      show (splitNL i.exampleScenario).filterMap (matchKeyLine "Additional Issue:") = []
        from List.filterMap_eq_nil_iff.mpr (fun l hl => (hsc_pl l hl).2.2.1),
      List.nil_append,
      List.filterMap_cons_none (matchKeyLine_none_empty _),
      List.filterMap_cons_none (by decide),
      List.filterMap_cons_none (matchKeyLine_none_empty _),
      List.filterMap_append,
      show (splitNL i.recommendation).filterMap (matchKeyLine "Additional Issue:") = []
        from List.filterMap_eq_nil_iff.mpr (fun l hl => (hre_pl l hl).2.2.1),
      List.nil_append,
      List.filterMap_cons_none (matchKeyLine_none_empty _),
      show List.filterMap (matchKeyLine "Additional Issue:") [] = [] from rfl,
      List.append_nil]
    exact filterMap_extras i.extraRows hrows
  have hkt : headingKey ("# Issue title: " ++ i.title) = none :=
    headingKey_none_hash1 (" Issue title: ".data ++ i.title.data) ' ' rfl (by decide)
  have hsecs : splitSections (splitNL (issueToMarkdown i)) =
      [("impact details", joinNL ([""] ++ splitNL i.impactDetails ++ [""])),
       ("description", joinNL ([""] ++ splitNL i.description
          ++ ["", "Evidence: " ++ i.evidence, ""])),
       ("code example", joinNL (["", "```" ++ i.codeLanguage]
          ++ splitNL i.codeExample ++ ["```", ""])),
       ("example issue scenario", joinNL ([""] ++ splitNL i.exampleScenario ++ [""])),
       ("recommendation", joinNL ([""] ++ splitNL i.recommendation ++ [""]))] := by
    unfold splitSections
    rw [hlines,
      splitSectionsGo_none_cons _ _ hkt,
      splitSectionsGo_none_cons "" _ (by decide),
      splitSectionsGo_none_cons ("Overall Risk: " ++ i.overallRisk) _ (headingKey_none_of_head ("Overall Risk: " ++ i.overallRisk) 'O' rfl (by decide)),
      splitSectionsGo_none_skip _ _ (by
        intro l hl
        obtain ⟨r, hr, rfl⟩ := List.mem_map.mp hl
        exact headingKey_none_of_head _ 'A' (eLine_head r) (by decide)),
      splitSectionsGo_none_cons ("Impact: " ++ i.impact) _ (headingKey_none_of_head ("Impact: " ++ i.impact) 'I' rfl (by decide)),
      splitSectionsGo_none_cons ("Exploitability: " ++ i.exploitability) _ (headingKey_none_of_head ("Exploitability: " ++ i.exploitability) 'E' rfl (by decide)),
      splitSectionsGo_none_cons ("Finding ID: " ++ i.findingId) _ (headingKey_none_of_head ("Finding ID: " ++ i.findingId) 'F' rfl (by decide)),
      splitSectionsGo_none_cons ("Component: " ++ i.component) _ (headingKey_none_of_head ("Component: " ++ i.component) 'C' rfl (by decide)),
      splitSectionsGo_none_cons ("Category: " ++ i.category) _ (headingKey_none_of_head ("Category: " ++ i.category) 'C' rfl (by decide)),
      splitSectionsGo_none_cons ("Status: " ++ i.status) _ (headingKey_none_of_head ("Status: " ++ i.status) 'S' rfl (by decide)),
      splitSectionsGo_none_cons "" _ (by decide),
      splitSectionsGo_heading _ "## Impact details" _ "impact details" (by decide),
      splitSectionsGo_acc_cons _ _ "" _ (by decide),
      splitSectionsGo_acc _ _ (splitNL i.impactDetails) _ (fun l hl => (hid_pl l hl).1),
      splitSectionsGo_acc_cons _ _ "" _ (by decide),
      splitSectionsGo_heading _ "## Description" _ "description" (by decide),
      splitSectionsGo_acc_cons _ _ "" _ (by decide),
      splitSectionsGo_acc _ _ (splitNL i.description) _ (fun l hl => (hde_pl l hl).1),
      splitSectionsGo_acc_cons _ _ "" _ (by decide),
      splitSectionsGo_acc_cons _ _ ("Evidence: " ++ i.evidence) _ (headingKey_none_of_head ("Evidence: " ++ i.evidence) 'E' rfl (by decide)),
      splitSectionsGo_acc_cons _ _ "" _ (by decide),
      splitSectionsGo_heading _ "### Code example" _ "code example" (by decide),
      splitSectionsGo_acc_cons _ _ "" _ (by decide),
      splitSectionsGo_acc_cons _ _ ("```" ++ i.codeLanguage) _ (headingKey_none_of_head ("```" ++ i.codeLanguage) '`' rfl (by decide)),
      splitSectionsGo_acc _ _ (splitNL i.codeExample) _ (fun l hl => (hce_pl l hl).1),
      splitSectionsGo_acc_cons _ _ "```" _ (by decide),
      splitSectionsGo_acc_cons _ _ "" _ (by decide),
      splitSectionsGo_heading _ "### Example issue scenario" _ "example issue scenario" (by decide),
      splitSectionsGo_acc_cons _ _ "" _ (by decide),
      splitSectionsGo_acc _ _ (splitNL i.exampleScenario) _ (fun l hl => (hsc_pl l hl).1),
      splitSectionsGo_acc_cons _ _ "" _ (by decide),
      splitSectionsGo_heading _ "## Recommendation" _ "recommendation" (by decide),
      splitSectionsGo_acc_cons _ _ "" _ (by decide),
      splitSectionsGo_acc _ _ (splitNL i.recommendation) _ (fun l hl => (hre_pl l hl).1),
      splitSectionsGo_acc_cons _ _ "" _ (by decide),
      splitSectionsGo_nil_acc]
    simp only [closeSection_none, closeSection_some, List.nil_append]
    simp
  have hg1 : getSection [("impact details", joinNL ([""] ++ splitNL i.impactDetails ++ [""])),
       ("description", joinNL ([""] ++ splitNL i.description
          ++ ["", "Evidence: " ++ i.evidence, ""])),
       ("code example", joinNL (["", "```" ++ i.codeLanguage]
          ++ splitNL i.codeExample ++ ["```", ""])),
       ("example issue scenario", joinNL ([""] ++ splitNL i.exampleScenario ++ [""])),
       ("recommendation", joinNL ([""] ++ splitNL i.recommendation ++ [""]))] "impact details"
      = some (joinNL ([""] ++ splitNL i.impactDetails ++ [""])) := by
    apply getSection_cons_eq_rest_ne _ _ _ rfl
    intro p hp
    fin_cases hp <;> simp
  have hg2 : getSection [("impact details", joinNL ([""] ++ splitNL i.impactDetails ++ [""])),
       ("description", joinNL ([""] ++ splitNL i.description
          ++ ["", "Evidence: " ++ i.evidence, ""])),
       ("code example", joinNL (["", "```" ++ i.codeLanguage]
          ++ splitNL i.codeExample ++ ["```", ""])),
       ("example issue scenario", joinNL ([""] ++ splitNL i.exampleScenario ++ [""])),
       ("recommendation", joinNL ([""] ++ splitNL i.recommendation ++ [""]))] "description"
      = some (joinNL ([""] ++ splitNL i.description
          ++ ["", "Evidence: " ++ i.evidence, ""])) := by
    rw [getSection_cons_ne _ _ _ (by simp)]
    apply getSection_cons_eq_rest_ne _ _ _ rfl
    intro p hp
    fin_cases hp <;> simp
  have hg3 : getSection [("impact details", joinNL ([""] ++ splitNL i.impactDetails ++ [""])),
       ("description", joinNL ([""] ++ splitNL i.description
          ++ ["", "Evidence: " ++ i.evidence, ""])),
       ("code example", joinNL (["", "```" ++ i.codeLanguage]
          ++ splitNL i.codeExample ++ ["```", ""])),
       ("example issue scenario", joinNL ([""] ++ splitNL i.exampleScenario ++ [""])),
       ("recommendation", joinNL ([""] ++ splitNL i.recommendation ++ [""]))] "code example"
      = some (joinNL (["", "```" ++ i.codeLanguage]
          ++ splitNL i.codeExample ++ ["```", ""])) := by
    rw [getSection_cons_ne _ _ _ (by simp), getSection_cons_ne _ _ _ (by simp)]
    apply getSection_cons_eq_rest_ne _ _ _ rfl
    intro p hp
    fin_cases hp <;> simp
  have hg4 : getSection [("impact details", joinNL ([""] ++ splitNL i.impactDetails ++ [""])),
       ("description", joinNL ([""] ++ splitNL i.description
          ++ ["", "Evidence: " ++ i.evidence, ""])),
       ("code example", joinNL (["", "```" ++ i.codeLanguage]
          ++ splitNL i.codeExample ++ ["```", ""])),
       ("example issue scenario", joinNL ([""] ++ splitNL i.exampleScenario ++ [""])),
       ("recommendation", joinNL ([""] ++ splitNL i.recommendation ++ [""]))] "example issue scenario"
      = some (joinNL ([""] ++ splitNL i.exampleScenario ++ [""])) := by
    rw [getSection_cons_ne _ _ _ (by simp), getSection_cons_ne _ _ _ (by simp),
      getSection_cons_ne _ _ _ (by simp)]
    apply getSection_cons_eq_rest_ne _ _ _ rfl
    intro p hp
    fin_cases hp <;> simp
  have hg5 : getSection [("impact details", joinNL ([""] ++ splitNL i.impactDetails ++ [""])),
       ("description", joinNL ([""] ++ splitNL i.description
          ++ ["", "Evidence: " ++ i.evidence, ""])),
       ("code example", joinNL (["", "```" ++ i.codeLanguage]
          ++ splitNL i.codeExample ++ ["```", ""])),
       ("example issue scenario", joinNL ([""] ++ splitNL i.exampleScenario ++ [""])),
       ("recommendation", joinNL ([""] ++ splitNL i.recommendation ++ [""]))] "recommendation"
      = some (joinNL ([""] ++ splitNL i.recommendation ++ [""])) := by
    rw [getSection_cons_ne _ _ _ (by simp), getSection_cons_ne _ _ _ (by simp),
      getSection_cons_ne _ _ _ (by simp), getSection_cons_ne _ _ _ (by simp)]
    apply getSection_cons_eq_rest_ne _ _ _ rfl
    intro p hp
    fin_cases hp <;> simp
  have hidets : (match getSection [("impact details", joinNL ([""] ++ splitNL i.impactDetails ++ [""])),
       ("description", joinNL ([""] ++ splitNL i.description
          ++ ["", "Evidence: " ++ i.evidence, ""])),
       ("code example", joinNL (["", "```" ++ i.codeLanguage]
          ++ splitNL i.codeExample ++ ["```", ""])),
       ("example issue scenario", joinNL ([""] ++ splitNL i.exampleScenario ++ [""])),
       ("recommendation", joinNL ([""] ++ splitNL i.recommendation ++ [""]))] "impact details" with
      | some c => jsTrim c
      | none => "") = i.impactDetails := by
    rw [hg1, joinNL_pad]
    exact jsTrim_sandwich ['\n'] ['\n'] i.impactDetails
      (by intro c hc; simp at hc; subst hc; decide)
      (by intro c hc; simp at hc; subst hc; decide) hid_fix
  have hscen : (match getSection [("impact details", joinNL ([""] ++ splitNL i.impactDetails ++ [""])),
       ("description", joinNL ([""] ++ splitNL i.description
          ++ ["", "Evidence: " ++ i.evidence, ""])),
       ("code example", joinNL (["", "```" ++ i.codeLanguage]
          ++ splitNL i.codeExample ++ ["```", ""])),
       ("example issue scenario", joinNL ([""] ++ splitNL i.exampleScenario ++ [""])),
       ("recommendation", joinNL ([""] ++ splitNL i.recommendation ++ [""]))] "example issue scenario" with
      | some c => jsTrim c
      | none => "") = i.exampleScenario := by
    rw [hg4, joinNL_pad]
    exact jsTrim_sandwich ['\n'] ['\n'] i.exampleScenario
      (by intro c hc; simp at hc; subst hc; decide)
      (by intro c hc; simp at hc; subst hc; decide) hsc_fix
  have hrec : (match getSection [("impact details", joinNL ([""] ++ splitNL i.impactDetails ++ [""])),
       ("description", joinNL ([""] ++ splitNL i.description
          ++ ["", "Evidence: " ++ i.evidence, ""])),
       ("code example", joinNL (["", "```" ++ i.codeLanguage]
          ++ splitNL i.codeExample ++ ["```", ""])),
       ("example issue scenario", joinNL ([""] ++ splitNL i.exampleScenario ++ [""])),
       ("recommendation", joinNL ([""] ++ splitNL i.recommendation ++ [""]))] "recommendation" with
      | some c => jsTrim c
      | none => "") = i.recommendation := by
    rw [hg5, joinNL_pad]
    exact jsTrim_sandwich ['\n'] ['\n'] i.recommendation
      (by intro c hc; simp at hc; subst hc; decide)
      (by intro c hc; simp at hc; subst hc; decide) hre_fix
  have hsplit2 : splitNL (joinNL ([""] ++ splitNL i.description
        ++ ["", "Evidence: " ++ i.evidence, ""]))
      = [""] ++ splitNL i.description ++ ["", "Evidence: " ++ i.evidence, ""] := by
    rw [splitNL_joinNL _ (by simp)]
    simp only [List.flatMap_append, List.flatMap_cons, List.flatMap_nil]
    rw [show splitNL "" = [""] from rfl,
      flatMap_splitNL_single (splitNL i.description)
        (splitNL_line_no_newline i.description), z9]
    simp
  have hemc : extractMainContent (joinNL ([""] ++ splitNL i.description
        ++ ["", "Evidence: " ++ i.evidence, ""]))
      = joinNL ([""] ++ splitNL i.description
        ++ ["", "Evidence: " ++ i.evidence, ""]) := by
    unfold extractMainContent
    rw [hsplit2, takeWhile_all_gen _ _ (by
      intro l hl
      rcases List.mem_append.mp hl with h1 | h2
      · rcases List.mem_append.mp h1 with ha | hb
        · simp at ha; subst ha; decide
        · simp [(hde_pl l hb).2.1]
      · simp at h2
        rcases h2 with rfl | rfl | rfl
        · decide
        · simp [isSubheadingStart_false_of_head ("Evidence: " ++ i.evidence) 'E' rfl
            (by decide)]
        · decide)]
  have hvfix : jsTrim (i.description ++ "\n\nEvidence: " ++ i.evidence)
      = i.description ++ "\n\nEvidence: " ++ i.evidence := by
    apply trimFix_intro
    · intro c hc
      rw [strData_append, strData_append,
        head?_append_left _ _ (by simp [hde_ne]),
        head?_append_left _ _ hde_ne] at hc
      exact trimFix_head i.description hde_fix c hc
    · intro c hc
      rw [strData_append, getLast?_append_right _ _ hev_ne] at hc
      exact trimFix_last i.evidence hev_fix c hc
  have hcast : (⟨'\n' :: (i.description.data ++ ('\n' :: '\n'
        :: (("Evidence: " ++ i.evidence).data ++ ['\n'])))⟩ : String)
      = ⟨['\n'] ++ ((i.description ++ "\n\nEvidence: " ++ i.evidence).data ++ ['\n'])⟩ := by
    apply String.ext
    show '\n' :: (i.description.data ++ ('\n' :: '\n'
        :: (("Evidence: " ++ i.evidence).data ++ ['\n'])))
      = ['\n'] ++ ((i.description ++ "\n\nEvidence: " ++ i.evidence).data ++ ['\n'])
    simp [strData_append]
  have hjst : jsTrim (joinNL ([""] ++ splitNL i.description
        ++ ["", "Evidence: " ++ i.evidence, ""]))
      = i.description ++ "\n\nEvidence: " ++ i.evidence := by
    rw [joinNL_pad3, hcast]
    exact jsTrim_sandwich ['\n'] ['\n'] _
      (by intro c hc; simp at hc; subst hc; decide)
      (by intro c hc; simp at hc; subst hc; decide) hvfix
  have hdesc : (match getSection [("impact details", joinNL ([""] ++ splitNL i.impactDetails ++ [""])),
       ("description", joinNL ([""] ++ splitNL i.description
          ++ ["", "Evidence: " ++ i.evidence, ""])),
       ("code example", joinNL (["", "```" ++ i.codeLanguage]
          ++ splitNL i.codeExample ++ ["```", ""])),
       ("example issue scenario", joinNL ([""] ++ splitNL i.exampleScenario ++ [""])),
       ("recommendation", joinNL ([""] ++ splitNL i.recommendation ++ [""]))] "description" with
      | some c => jsTrim (extractMainContent c)
      | none => "") = i.description ++ "\n\nEvidence: " ++ i.evidence := by
    rw [hg2]
    have hx : jsTrim (extractMainContent (joinNL ([""] ++ splitNL i.description
        ++ ["", "Evidence: " ++ i.evidence, ""])))
        = i.description ++ "\n\nEvidence: " ++ i.evidence := by
      rw [hemc]
      exact hjst
    exact hx
  have hevOf : evidenceOf (joinNL ([""] ++ splitNL i.description
        ++ ["", "Evidence: " ++ i.evidence, ""])) = some ⟨i.evidence.data⟩ := by
    unfold evidenceOf
    rw [hsplit2,
      firstSome_append_none _ _ _ (by
        intro l hl
        rcases List.mem_append.mp hl with ha | hb
        · simp at ha
          subst ha
          exact rfl
        · exact evidenceInLine_none _ ((hde_pl l hb).2.2.2)),
      firstSome_cons_none (fun l : String => evidenceInLine l.data) "" _ rfl,
      firstSome_cons_some (fun l : String => evidenceInLine l.data)
        ("Evidence: " ++ i.evidence) _ _ (evidenceInLine_std i.evidence hev_fix hev_ne)]
  have hevid : (match getSection [("impact details", joinNL ([""] ++ splitNL i.impactDetails ++ [""])),
       ("description", joinNL ([""] ++ splitNL i.description
          ++ ["", "Evidence: " ++ i.evidence, ""])),
       ("code example", joinNL (["", "```" ++ i.codeLanguage]
          ++ splitNL i.codeExample ++ ["```", ""])),
       ("example issue scenario", joinNL ([""] ++ splitNL i.exampleScenario ++ [""])),
       ("recommendation", joinNL ([""] ++ splitNL i.recommendation ++ [""]))] "description" with
      | some c =>
        match evidenceOf c with
        | some v => jsTrim v
        | none => ""
      | none => "") = i.evidence := by
    rw [hg2]
    have hch : (match evidenceOf (joinNL ([""] ++ splitNL i.description
        ++ ["", "Evidence: " ++ i.evidence, ""])) with
        | some v => jsTrim v
        | none => "") = i.evidence := by
      rw [hevOf]
      exact hev_fix
    exact hch
  have hfcb : findCodeBlock ((joinNL (["", "```" ++ i.codeLanguage]
        ++ splitNL i.codeExample ++ ["```", ""])).data)
      = some (i.codeLanguage, ⟨i.codeExample.data ++ ['\n']⟩) := by
    rw [joinNL_code]
    exact findCodeBlock_std i.codeLanguage i.codeExample hcl_w hce_nf
  have hcpair : (match findCodeBlock ((joinNL (["", "```" ++ i.codeLanguage]
        ++ splitNL i.codeExample ++ ["```", ""])).data) with
      | some (lang, body) => (jsTrim body, if lang = "" then "text" else lang)
      | none => (jsTrim (joinNL (["", "```" ++ i.codeLanguage]
          ++ splitNL i.codeExample ++ ["```", ""])), ""))
      = (i.codeExample, i.codeLanguage) := by
    rw [hfcb]
    show (jsTrim ⟨i.codeExample.data ++ ['\n']⟩,
        if i.codeLanguage = "" then "text" else i.codeLanguage)
      = (i.codeExample, i.codeLanguage)
    rw [if_neg (show ¬ i.codeLanguage = "" from
        fun he => hcl_ne (congrArg String.data he))]
    rw [show jsTrim ⟨i.codeExample.data ++ ['\n']⟩ = i.codeExample from by
      have hs := jsTrim_sandwich [] ['\n'] i.codeExample
        (by intro c hc; simp at hc)
        (by intro c hc; simp at hc; subst hc; decide) hce_fix
      simpa using hs]
  have hcp1 : (match getSection [("impact details", joinNL ([""] ++ splitNL i.impactDetails ++ [""])),
       ("description", joinNL ([""] ++ splitNL i.description
          ++ ["", "Evidence: " ++ i.evidence, ""])),
       ("code example", joinNL (["", "```" ++ i.codeLanguage]
          ++ splitNL i.codeExample ++ ["```", ""])),
       ("example issue scenario", joinNL ([""] ++ splitNL i.exampleScenario ++ [""])),
       ("recommendation", joinNL ([""] ++ splitNL i.recommendation ++ [""]))] "code example" with
      | some c =>
        match findCodeBlock c.data with
        | some (lang, body) => (jsTrim body, if lang = "" then "text" else lang)
        | none => (jsTrim c, "")
      | none => (("" : String), ("" : String))).1 = i.codeExample := by
    rw [hg3]
    exact congrArg Prod.fst hcpair
  have hcp2 : (match getSection [("impact details", joinNL ([""] ++ splitNL i.impactDetails ++ [""])),
       ("description", joinNL ([""] ++ splitNL i.description
          ++ ["", "Evidence: " ++ i.evidence, ""])),
       ("code example", joinNL (["", "```" ++ i.codeLanguage]
          ++ splitNL i.codeExample ++ ["```", ""])),
       ("example issue scenario", joinNL ([""] ++ splitNL i.exampleScenario ++ [""])),
       ("recommendation", joinNL ([""] ++ splitNL i.recommendation ++ [""]))] "code example" with
      | some c =>
        match findCodeBlock c.data with
        | some (lang, body) => (jsTrim body, if lang = "" then "text" else lang)
        | none => (jsTrim c, "")
      | none => (("" : String), ("" : String))).2 = i.codeLanguage := by
    rw [hg3]
    exact congrArg Prod.snd hcpair
  have hfinal : parseIssue (issueToMarkdown i)
      = { i.toIssueRec with
          description := i.description ++ "\n\nEvidence: " ++ i.evidence } := by
    simp only [parseIssue]
    rw [hsecs, htitle, hOR, hIM, hEX, hFI, hCO, hCA, hST, hidets, hdesc, hevid,
      hscen, hrec, hext, hcp1, hcp2]
  exact hfinal

/-- Claim C2, counterexample: the round trip is not the identity even on an
all-fields-non-empty record — the serializer writes the evidence as an
`Evidence:` line inside the `## Description` section, and the parser's
description field keeps that whole section, so the re-parsed description is
the original description with `"\n\nEvidence: "` and the evidence value
appended. -/
theorem roundTrip_counterexample :
    parseIssue (issueToMarkdown roundTripIssue) ≠ roundTripIssue.toIssueRec
    ∧ (parseIssue (issueToMarkdown roundTripIssue)).description
        = "desc text\n\nEvidence: ev" := by
  decide

/-- Claim C2, witness: the amended round-trip theorem applied to a concrete
well-formed record, its `wfIssue` hypothesis discharged by computation. -/
theorem roundTrip_amended_witness :
    wfIssue roundTripIssue
    ∧ parseIssue (issueToMarkdown roundTripIssue)
        = { roundTripIssue.toIssueRec with
            description := roundTripIssue.description ++ "\n\nEvidence: "
              ++ roundTripIssue.evidence } := by
  have hwf : wfIssue roundTripIssue := by
    unfold wfIssue
    refine ⟨?_, ?_, ?_, ?_, ?_, ?_, ?_, ?_, ?_, ?_, ?_, ?_, ?_, ?_, ?_, ?_⟩
    · unfold simpleLine; decide
    · unfold simpleLine; decide
    · unfold simpleLine; decide
    · unfold simpleLine; decide
    · unfold simpleLine; decide
    · unfold simpleLine; decide
    · unfold simpleLine; decide
    · unfold simpleLine; decide
    · unfold plainBlock plainLine; decide
    · unfold plainBlock plainLine; decide
    · unfold simpleLine; decide
    · unfold codeBlockOk plainBlock plainLine; decide
    · unfold wordString; decide
    · unfold plainBlock plainLine; decide
    · unfold plainBlock plainLine; decide
    · unfold extraRowOk simpleLine; decide
  exact ⟨hwf, roundTrip_amended roundTripIssue hwf⟩
